import Mathlib

/-!
Verification of the brief-mode field-selection and formatting subsystem of the
mcp-server-redmine repository.  The definitions below are a shallow embedding of
the TypeScript sources (src/formatters/text-truncation.ts,
src/formatters/field-selector.ts, src/formatters/issues.ts and the
format-options module).  JavaScript strings are modelled as Lean strings
(lists of characters); the UTF-16 length of a JS string and the character count
agree on all inputs considered here.  JS numbers that the code only ever uses
as integers are modelled as Nat/Int.  The float comparison
lastSpace > maxLength * 0.8 is modelled as the exact rational comparison
5 * lastSpace > 4 * maxLength, which agrees with the IEEE-754 computation for
all realistic maxLength values.
-/

set_option maxRecDepth 8000

namespace Redmine

/-- The set of characters removed by JavaScript String.prototype.trim
(WhiteSpace and LineTerminator code points). -/
def isJsWs (c : Char) : Bool :=
  c.val = 9 || c.val = 10 || c.val = 11 || c.val = 12 || c.val = 13 ||
  c.val = 32 || c.val = 160 || c.val = 0x1680 ||
  (0x2000 ≤ c.val && c.val ≤ 0x200a) ||
  c.val = 0x2028 || c.val = 0x2029 || c.val = 0x202f || c.val = 0x205f ||
  c.val = 0x3000 || c.val = 0xfeff

/-- Drop trailing JS-whitespace characters (the right half of trim). -/
def dropTrailWs : List Char → List Char
  | [] => []
  | a :: as =>
    let r := dropTrailWs as
    if r = [] ∧ isJsWs a then [] else a :: r

/-- JavaScript String.prototype.trim on character lists. -/
def trimL (l : List Char) : List Char :=
  dropTrailWs (l.dropWhile isJsWs)

/-- Global replacement of the two-character pattern CR LF by LF, scanning left
to right without rescanning replacements, as JS replace(/\r\n/g, a newline)
does. -/
def replCRLF : List Char → List Char
  | '\r' :: '\n' :: rest => '\n' :: replCRLF rest
  | a :: rest => a :: replCRLF rest
  | [] => []

/-- Number of leading newline characters. -/
def countLeadNL : List Char → Nat
  | '\n' :: rest => countLeadNL rest + 1
  | _ => 0

/-- Run accumulator for collapseNL: run counts the newline characters read
since the last non-newline character; a finished maximal run of length r is
emitted as min r 2 newlines, which keeps runs of one or two and turns every
run of three or more into exactly two. -/
def collapseGo (run : Nat) : List Char → List Char
  | [] => List.replicate (min run 2) '\n'
  | '\n' :: rest => collapseGo (run + 1) rest
  | a :: rest => List.replicate (min run 2) '\n' ++ a :: collapseGo 0 rest

/-- Global replacement of every maximal run of three or more newlines by
exactly two, as JS replace of three-or-more newlines by two does. -/
def collapseNL (l : List Char) : List Char :=
  collapseGo 0 l

/-- Index of the last occurrence of a character, minus one if absent
(JS lastIndexOf). -/
def lastIdx (c : Char) : List Char → Int
  | [] => -1
  | a :: as =>
    let r := lastIdx c as
    if r ≥ 0 then r + 1 else if a = c then 0 else -1

/--
Source: truncateText in src/formatters/text-truncation.ts.  Truncate text to a
maximum length with ellipsis; a last space strictly inside the final 20% of the
prefix becomes the cut point.
-/
def truncateTextL (text : List Char) (maxLength : Nat) : List Char :=
  if text = [] ∨ text.length ≤ maxLength then text
  else
    let truncated := text.take maxLength
    let lastSpace := lastIdx ' ' truncated
    if 5 * lastSpace > 4 * (maxLength : Int) then
      truncated.take lastSpace.toNat ++ ('.' :: '.' :: '.' :: [])
    else
      truncated ++ ('.' :: '.' :: '.' :: [])

/-- String wrapper for truncateTextL. -/
def truncateText (text : String) (maxLength : Nat) : String :=
  (truncateTextL text.data maxLength).asString

/-- The cleaning pass of truncateDescription: normalize line endings, limit
consecutive line breaks, trim. -/
def cleanDescription (l : List Char) : List Char :=
  trimL (collapseNL (replCRLF l))

/--
Source: truncateDescription in src/formatters/text-truncation.ts.  null or
undefined (or empty, which is falsy) yields the empty string; otherwise the
text is cleaned and, when longer than maxLength, passed to truncateText.
-/
def truncateDescription (description : Option String) (maxLength : Nat) : String :=
  match description with
  | none => ""
  | some s =>
    if s = "" then ""
    else
      let cleaned := cleanDescription s.data
      if cleaned.length ≤ maxLength then cleaned.asString
      else (truncateTextL cleaned maxLength).asString

/-- A journal change-detail entry ({property, name, old_value?, new_value?}). -/
structure JournalDetail where
  property : String
  name : String
  old_value : Option String
  new_value : Option String
deriving Repr, DecidableEq

/-- Pair of id and name, used for project/tracker/status/priority/author and
the other reference sub-objects of an issue. -/
structure NamedRef where
  id : Nat
  name : String
deriving Repr, DecidableEq

/-- A journal entry attached to an issue.  notes covers both the null and the
undefined JS value by none; private_notes covers undefined by false. -/
structure Journal where
  id : Nat
  user : NamedRef
  notes : Option String
  private_notes : Bool
  created_on : String
  details : Option (List JournalDetail)
deriving Repr, DecidableEq

/-- JS Array.prototype.slice with one argument on lists: a negative start
counts from the end, a nonnegative start drops that many elements. -/
def jsSliceFrom (l : List Journal) (start : Int) : List Journal :=
  if 0 ≤ start then l.drop start.toNat
  else l.drop (l.length - start.natAbs)

/-- The per-entry note truncation applied by limitJournalEntries: truthy notes
are truncated, null/undefined/empty notes kept as-is. -/
def truncJournalNotes (maxNoteLength : Nat) (j : Journal) : Journal :=
  { j with
    notes :=
      match j.notes with
      | some s => if s = "" then some s else some (truncateText s maxNoteLength)
      | none => none }

/--
Source: limitJournalEntries in src/formatters/text-truncation.ts.  Selects
entries via slice(-maxEntries) and truncates each entry's notes.  maxEntries is
an Int so that the JS behavior at zero and negative arguments is captured:
slice(-0) keeps everything, slice(-(-k)) drops the first k entries.
-/
def limitJournalEntries (journals : Option (List Journal)) (maxEntries : Int)
    (maxNoteLength : Nat := 100) : List Journal :=
  match journals with
  | none => []
  | some js =>
    if js = [] then []
    else
      let limited := jsSliceFrom js (-maxEntries)
      limited.map (truncJournalNotes maxNoteLength)

/-- A custom-field value: string, array of strings, or null
(none covers the null and absent cases the code treats alike). -/
inductive CFValue where
  | str (s : String)
  | arr (l : List String)
  | null
deriving Repr, DecidableEq

/-- A custom field {id, name, value} attached to an issue. -/
structure CustomField where
  id : Nat
  name : String
  value : CFValue
deriving Repr, DecidableEq

/-- JS truthiness of a string value. -/
def strTruthy : Option String → Bool
  | none => false
  | some s => s ≠ ""

/--
Source: isCustomFieldNonEmpty in src/formatters/field-selector.ts.  A field is
non-empty iff its value is neither null nor undefined, a string value trims to
positive length, and an array value is non-empty with some element that is
truthy and trims to positive length.
-/
def isCustomFieldNonEmpty (field : CustomField) : Bool :=
  match field.value with
  | .null => false
  | .str s => (trimL s.data).length > 0
  | .arr l => l.length > 0 && l.any (fun v => v ≠ "" && (trimL v.data).length > 0)

/--
Source: skipEmptyCustomFields in src/formatters/field-selector.ts.  Filters out
the fields whose value is null, a string of whitespace, or an array with no
non-blank element (textually the same test as isCustomFieldNonEmpty).
-/
def skipEmptyCustomFields (customFields : List CustomField) : List CustomField :=
  customFields.filter fun field =>
    match field.value with
    | .null => false
    | .str s => (trimL s.data).length > 0
    | .arr l => l.length > 0 && l.any (fun v => v ≠ "" && (trimL v.data).length > 0)

/-- An issue relation; copied by the selector, never rendered. -/
structure Relation where
  id : Nat
  issue_id : Nat
  issue_to_id : Nat
  relation_type : String
  delay : Option Int
deriving Repr, DecidableEq

/-- The RedmineIssue record (src/lib/types/issues/types.ts) restricted to the
attributes the formatters read.  Required attributes of the TS interface are
plain fields; optional ones are Options (none covering both undefined and
null, which the formatters treat alike except where noted).  Numeric fields
the code only displays are modelled as integers. -/
structure RedmineIssue where
  id : Nat
  subject : String
  project : NamedRef
  tracker : NamedRef
  status : NamedRef
  priority : NamedRef
  author : NamedRef
  assigned_to : Option NamedRef
  category : Option NamedRef
  fixed_version : Option NamedRef
  parent : Option Nat
  description : Option String
  start_date : Option String
  due_date : Option String
  done_ratio : Int
  estimated_hours : Option Int
  spent_hours : Option Int
  custom_fields : Option (List CustomField)
  created_on : String
  updated_on : String
  closed_on : Option String
  journals : Option (List Journal)
  relations : Option (List Relation)
deriving Repr, DecidableEq

/-- The three-way description option of BriefFieldOptions as used by
formatIssueBrief: false/undefined, true, or the string "truncated". -/
inductive DescOption where
  | off
  | on
  | truncated
deriving Repr, DecidableEq

/-- JS truthiness of the description option. -/
def DescOption.truthy : DescOption → Bool
  | .off => false
  | _ => true

/-- The custom_fields option of BriefFieldOptions: false/undefined, true, or
an array of field names (an empty array is truthy in JS). -/
inductive CFOption where
  | off
  | all
  | names (l : List String)
deriving Repr, DecidableEq

/-- JS truthiness of the custom_fields option. -/
def CFOption.truthy : CFOption → Bool
  | .off => false
  | _ => true

/-- BriefFieldOptions (format-options module).  Undefined boolean members and
false coincide for every use the formatters make of them. -/
structure BriefFieldOptions where
  assignee : Bool := false
  description : DescOption := .off
  custom_fields : CFOption := .off
  dates : Bool := false
  category : Bool := false
  version : Bool := false
  time_tracking : Bool := false
  journals : Bool := false
  relations : Bool := false
  attachments : Bool := false
deriving Repr, DecidableEq

/--
Source: createDefaultBriefFields in the format-options module: assignee and
dates on, everything else (including description) off.
-/
def createDefaultBriefFields : BriefFieldOptions :=
  { assignee := true
    dates := true
    description := .off
    custom_fields := .off
    category := false
    version := false
    time_tracking := false
    journals := false
    relations := false
    attachments := false }

/-- OutputDetailLevel from the format-options module. -/
inductive DetailLevel where
  | brief
  | full
deriving Repr, DecidableEq

/-- FormatOptions from the format-options module. -/
structure FormatOptions where
  detail_level : DetailLevel
  brief_fields : Option BriefFieldOptions := none
  max_description_length : Option Nat := none
  max_journal_entries : Option Nat := none
deriving Repr, DecidableEq

/-- The reduced issue built by selectFields.  The seven essential attributes
are assigned unconditionally by the source, so they are plain fields; every
other attribute is optional. -/
structure SelectedIssue where
  id : Nat
  subject : String
  project : NamedRef
  tracker : NamedRef
  status : NamedRef
  priority : NamedRef
  author : NamedRef
  assigned_to : Option NamedRef := none
  description : Option String := none
  start_date : Option String := none
  due_date : Option String := none
  created_on : Option String := none
  updated_on : Option String := none
  closed_on : Option String := none
  category : Option NamedRef := none
  fixed_version : Option NamedRef := none
  estimated_hours : Option Int := none
  spent_hours : Option Int := none
  done_ratio : Option Int := none
  custom_fields : Option (List CustomField) := none
  journals : Option (List Journal) := none
  relations : Option (List Relation) := none
deriving Repr, DecidableEq

/-- FieldSelectionResult: selected issue fields plus optional warnings. -/
structure FieldSelectionResult where
  issue : SelectedIssue
  warnings : Option (List String)
deriving Repr, DecidableEq

/-- The result pair of selectCustomFields. -/
structure CustomFieldSelectionResult where
  fields : List CustomField
  warnings : List String
deriving Repr, DecidableEq

/-- The single pass of selectCustomFields over the issue's custom fields:
record every requested name that occurs, and push the non-empty matches in
encounter order. -/
def scfLoop (option : List String) :
    List CustomField → List CustomField × List String
  | [] => ([], [])
  | field :: rest =>
    let (fs, found) := scfLoop option rest
    if option.contains field.name then
      if isCustomFieldNonEmpty field then (field :: fs, field.name :: found)
      else (fs, field.name :: found)
    else (fs, found)

/-- The warning emitted for a requested custom-field name that is missing or
empty. -/
def cfWarning (name : String) : String :=
  "Custom field \"" ++ name ++ "\" not found or empty"

/--
Source: selectCustomFields in src/formatters/field-selector.ts.  true selects
all non-empty fields; false or an empty name list selects none; a non-empty
name list selects the non-empty fields whose name is requested (in the order
the issue lists them) and emits one warning per requested name that is not
found or whose first occurrence is empty (in requested order).
-/
def selectCustomFields (customFields : List CustomField) (option : CFOption) :
    CustomFieldSelectionResult :=
  match option with
  | .all => ⟨skipEmptyCustomFields customFields, []⟩
  | .off => ⟨[], []⟩
  | .names l =>
    if l = [] then ⟨[], []⟩
    else
      let (selectedFields, foundFieldNames) := scfLoop l customFields
      let warnings := l.foldl (fun ws requestedName =>
        if !foundFieldNames.contains requestedName then
          ws ++ [cfWarning requestedName]
        else
          match customFields.find? (fun f => f.name = requestedName) with
          | some foundField =>
            if !isCustomFieldNonEmpty foundField then ws ++ [cfWarning requestedName]
            else ws
          | none => ws) []
      ⟨selectedFields, warnings⟩

/--
Source: selectFields in src/formatters/field-selector.ts.  Copies the seven
essential attributes unconditionally and every optional group only when its
option is truthy and the source value is present (truthy). -/
def selectFields (issue : RedmineIssue) (options : BriefFieldOptions) :
    FieldSelectionResult :=
  let cfResult :=
    if options.custom_fields.truthy then
      match issue.custom_fields with
      | some cfs => some (selectCustomFields cfs options.custom_fields)
      | none => none
    else none
  let warnings := match cfResult with
    | some r => r.warnings
    | none => []
  let selected : SelectedIssue :=
    { id := issue.id
      subject := issue.subject
      project := issue.project
      tracker := issue.tracker
      status := issue.status
      priority := issue.priority
      author := issue.author
      assigned_to :=
        if options.assignee ∧ issue.assigned_to.isSome then issue.assigned_to
        else none
      description :=
        if options.description.truthy ∧ strTruthy issue.description then
          issue.description
        else none
      start_date :=
        if options.dates ∧ strTruthy issue.start_date then issue.start_date
        else none
      due_date :=
        if options.dates ∧ strTruthy issue.due_date then issue.due_date
        else none
      created_on := if options.dates then some issue.created_on else none
      updated_on := if options.dates then some issue.updated_on else none
      closed_on :=
        if options.dates ∧ strTruthy issue.closed_on then issue.closed_on
        else none
      category :=
        if options.category ∧ issue.category.isSome then issue.category
        else none
      fixed_version :=
        if options.version ∧ issue.fixed_version.isSome then issue.fixed_version
        else none
      estimated_hours :=
        if options.time_tracking then issue.estimated_hours else none
      spent_hours :=
        if options.time_tracking then issue.spent_hours else none
      done_ratio :=
        if options.time_tracking then some issue.done_ratio else none
      custom_fields := (cfResult.map (·.fields))
      journals :=
        if options.journals ∧ issue.journals.isSome then issue.journals
        else none
      relations :=
        if options.relations ∧ issue.relations.isSome then issue.relations
        else none }
  ⟨selected, if warnings ≠ [] then some warnings else none⟩

/-- Replace every occurrence of a single character by a replacement string
(JS global single-character-class replace). -/
def replChar (c : Char) (r : List Char) : List Char → List Char
  | [] => []
  | a :: as => (if a = c then r else [a]) ++ replChar c r as

/-- The escapeXml chain on characters: ampersand first, then the angle
brackets, then the quotes. -/
def escapeXmlL (l : List Char) : List Char :=
  replChar '\'' "&apos;".data
    (replChar '"' "&quot;".data
      (replChar '>' "&gt;".data
        (replChar '<' "&lt;".data
          (replChar '&' "&amp;".data l))))

/--
Source: escapeXml in src/formatters/issues.ts.  null and undefined yield the
empty string; otherwise the five XML-reserved characters are replaced by their
entities.
-/
def escapeXml (raw : Option String) : String :=
  match raw with
  | none => ""
  | some s => (escapeXmlL s.data).asString

/-- Interpolation of a possibly-undefined string into a JS template literal. -/
def jsStr : Option String → String
  | some s => s
  | none => "undefined"

/-- The per-field fragment of formatCustomFields. -/
def formatCustomField (field : CustomField) : String :=
  "\n    <field>\n      <id>" ++ toString field.id ++
  "</id>\n      <name>" ++ escapeXml (some field.name) ++
  "</name>\n      <value>" ++
  (match field.value with
   | .null => ""
   | .arr l => escapeXml (some (String.intercalate ", " l))
   | .str s => escapeXml (some s)) ++
  "</value>\n    </field>"

/-- Source: formatCustomFields in src/formatters/issues.ts. -/
def formatCustomFields (fields : List CustomField) : String :=
  "\n  <custom_fields>\n    " ++ String.join (fields.map formatCustomField) ++
  "\n  </custom_fields>"

/-- The per-detail fragment of formatJournals. -/
def formatJournalDetail (detail : JournalDetail) : String :=
  "\n        <detail>\n          <property>" ++ escapeXml (some detail.property) ++
  "</property>\n          <name>" ++ escapeXml (some detail.name) ++
  "</name>\n          " ++
  (match detail.old_value with
   | some v => "<old_value>" ++ escapeXml (some v) ++ "</old_value>"
   | none => "") ++
  "\n          " ++
  (match detail.new_value with
   | some v => "<new_value>" ++ escapeXml (some v) ++ "</new_value>"
   | none => "") ++
  "\n        </detail>"

/-- The per-journal fragment of formatJournals. -/
def formatJournalEntry (journal : Journal) : String :=
  "\n    <journal>\n      <id>" ++ toString journal.id ++
  "</id>\n      <user>" ++ escapeXml (some journal.user.name) ++
  "</user>\n      <created_on>" ++ journal.created_on ++
  "</created_on>\n      " ++
  (if journal.private_notes then "<private_notes>true</private_notes>" else "") ++
  "\n      " ++
  (match journal.notes with
   | some s => "<notes>" ++ escapeXml (some s) ++ "</notes>"
   | none => "") ++
  "\n      " ++
  (match journal.details with
   | some ds =>
     if ds.length > 0 then
       "\n      <details>\n        " ++
       String.join (ds.map formatJournalDetail) ++ "\n      </details>"
     else ""
   | none => "") ++
  "\n    </journal>"

/-- Source: formatJournals in src/formatters/issues.ts. -/
def formatJournals (journals : List Journal) : String :=
  "\n  <journals>\n    " ++ String.join (journals.map formatJournalEntry) ++
  "\n  </journals>"

/-- The unconditional opening of the brief template: the six essential tags
(no author tag appears in brief mode). -/
def briefCoreSection (s : SelectedIssue) : String :=
  "<issue>\n  <id>" ++ toString s.id ++
  "</id>\n  <subject>" ++ escapeXml (some s.subject) ++
  "</subject>\n  <project>" ++ escapeXml (some s.project.name) ++
  "</project>\n  <tracker>" ++ escapeXml (some s.tracker.name) ++
  "</tracker>\n  <status>" ++ escapeXml (some s.status.name) ++
  "</status>\n  <priority>" ++ escapeXml (some s.priority.name) ++
  "</priority>"

/-- The warnings block appended when the selection produced warnings. -/
def briefWarningsSection (warnings : Option (List String)) : String :=
  match warnings with
  | some ws =>
    if ws ≠ [] then
      "\n  <warnings>" ++
      ws.foldl (fun acc warning =>
        acc ++ "\n    <warning>" ++ escapeXml (some warning) ++ "</warning>") "" ++
      "\n  </warnings>"
    else ""
  | none => ""

/-- The assigned_to element of the brief template. -/
def briefAssignedSection (s : SelectedIssue) : String :=
  match s.assigned_to with
  | some a => "\n  <assigned_to>" ++ escapeXml (some a.name) ++ "</assigned_to>"
  | none => ""

/-- The description element of the brief template, truncated or verbatim. -/
def briefDescriptionSection (s : SelectedIssue) (options : BriefFieldOptions)
    (maxDescLength : Nat) : String :=
  if strTruthy s.description ∧ options.description.truthy then
    match options.description with
    | .truncated =>
      let truncatedDesc := truncateDescription s.description maxDescLength
      if truncatedDesc ≠ "" then
        "\n  <description>" ++ escapeXml (some truncatedDesc) ++ "</description>"
      else ""
    | .on => "\n  <description>" ++ escapeXml s.description ++ "</description>"
    | .off => ""
  else ""

/-- The category element of the brief template. -/
def briefCategorySection (s : SelectedIssue) (options : BriefFieldOptions) : String :=
  match s.category with
  | some c => if options.category then
      "\n  <category>" ++ escapeXml (some c.name) ++ "</category>" else ""
  | none => ""

/-- The version element of the brief template. -/
def briefVersionSection (s : SelectedIssue) (options : BriefFieldOptions) : String :=
  match s.fixed_version with
  | some v => if options.version then
      "\n  <version>" ++ escapeXml (some v.name) ++ "</version>" else ""
  | none => ""

/-- The dates block of the brief template: start/due only when truthy, then
created_on and updated_on unconditionally, all embedded verbatim. -/
def briefDatesSection (s : SelectedIssue) (options : BriefFieldOptions) : String :=
  if options.dates then
    (match s.start_date with
     | some d => if d ≠ "" then "\n  <start_date>" ++ d ++ "</start_date>" else ""
     | none => "") ++
    (match s.due_date with
     | some d => if d ≠ "" then "\n  <due_date>" ++ d ++ "</due_date>" else ""
     | none => "") ++
    "\n  <created_on>" ++ jsStr s.created_on ++ "</created_on>" ++
    "\n  <updated_on>" ++ jsStr s.updated_on ++ "</updated_on>"
  else ""

/-- The time-tracking block of the brief template. -/
def briefTimeTrackingSection (s : SelectedIssue) (options : BriefFieldOptions) : String :=
  if options.time_tracking then
    (match s.done_ratio with
     | some r => "\n  <progress>" ++ toString r ++ "%</progress>"
     | none => "") ++
    (match s.estimated_hours with
     | some e => "\n  <estimated_hours>" ++ toString e ++ "</estimated_hours>"
     | none => "") ++
    (match s.spent_hours with
     | some e => "\n  <spent_hours>" ++ toString e ++ "</spent_hours>"
     | none => "")
  else ""

/-- The custom-fields block of the brief template. -/
def briefCustomFieldsSection (s : SelectedIssue) (options : BriefFieldOptions) : String :=
  match s.custom_fields with
  | some cfs =>
    if options.custom_fields.truthy then
      if cfs.length > 0 then formatCustomFields cfs else ""
    else ""
  | none => ""

/-- The journals block of the brief template: limit, then render when any
entry remains. -/
def briefJournalsSection (s : SelectedIssue) (options : BriefFieldOptions)
    (maxJournalEntries : Int) : String :=
  match s.journals with
  | some js =>
    if options.journals then
      let limitedJournals := limitJournalEntries (some js) maxJournalEntries
      if limitedJournals ≠ [] then formatJournals limitedJournals else ""
    else ""
  | none => ""

/--
Source: formatIssueBrief in src/formatters/issues.ts.  Selects fields, then
appends the sections of the brief template in source order (the += chain of
briefXml).
-/
def formatIssueBrief (issue : RedmineIssue) (options : BriefFieldOptions)
    (maxDescLength : Nat := 200) (maxJournalEntries : Int := 3) : String :=
  let selectionResult := selectFields issue options
  let s := selectionResult.issue
  briefCoreSection s ++
  briefWarningsSection selectionResult.warnings ++
  briefAssignedSection s ++
  briefDescriptionSection s options maxDescLength ++
  briefCategorySection s options ++
  briefVersionSection s options ++
  briefDatesSection s options ++
  briefTimeTrackingSection s options ++
  briefCustomFieldsSection s options ++
  briefJournalsSection s options maxJournalEntries ++
  "\n</issue>"

/-- The opening lines of the full template: the six unconditional core
elements. -/
def fullCoreSection (issue : RedmineIssue) : String :=
  "<issue>\n  <id>" ++ toString issue.id ++
  "</id>\n  <subject>" ++ escapeXml (some issue.subject) ++
  "</subject>\n  <project>" ++ escapeXml (some issue.project.name) ++
  "</project>\n  <tracker>" ++ escapeXml (some issue.tracker.name) ++
  "</tracker>\n  <status>" ++ escapeXml (some issue.status.name) ++
  "</status>\n  <priority>" ++ escapeXml (some issue.priority.name) ++
  "</priority>"

/-- The author line of the full template; author is a required attribute of
RedmineIssue, so the conditional of the source is always taken. -/
def fullAuthorSection (issue : RedmineIssue) : String :=
  "\n  " ++ ("<author>" ++ escapeXml (some issue.author.name) ++ "</author>")

/-- The assigned_to line of the full template. -/
def fullAssignedSection (issue : RedmineIssue) : String :=
  "\n  " ++
  (match issue.assigned_to with
   | some a => "<assigned_to>" ++ escapeXml (some a.name) ++ "</assigned_to>"
   | none => "")

/-- The category line of the full template. -/
def fullCategorySection (issue : RedmineIssue) : String :=
  "\n  " ++
  (match issue.category with
   | some c => "<category>" ++ escapeXml (some c.name) ++ "</category>"
   | none => "")

/-- The version line of the full template. -/
def fullVersionSection (issue : RedmineIssue) : String :=
  "\n  " ++
  (match issue.fixed_version with
   | some v => "<version>" ++ escapeXml (some v.name) ++ "</version>"
   | none => "")

/-- The parent line of the full template. -/
def fullParentSection (issue : RedmineIssue) : String :=
  "\n  " ++
  (match issue.parent with
   | some pid => "<parent_id>" ++ toString pid ++ "</parent_id>"
   | none => "")

/-- The start_date line of the full template (verbatim embedding). -/
def fullStartDateSection (issue : RedmineIssue) : String :=
  "\n  " ++
  (match issue.start_date with
   | some d => if d ≠ "" then "<start_date>" ++ d ++ "</start_date>" else ""
   | none => "")

/-- The due_date line of the full template (verbatim embedding). -/
def fullDueDateSection (issue : RedmineIssue) : String :=
  "\n  " ++
  (match issue.due_date with
   | some d => if d ≠ "" then "<due_date>" ++ d ++ "</due_date>" else ""
   | none => "")

/-- The progress line of the full template; done_ratio is required, so the
element always renders. -/
def fullProgressSection (issue : RedmineIssue) : String :=
  "\n  " ++ ("<progress>" ++ toString issue.done_ratio ++ "%</progress>")

/-- The estimated_hours line of the full template. -/
def fullEstimatedSection (issue : RedmineIssue) : String :=
  "\n  " ++
  (match issue.estimated_hours with
   | some e => "<estimated_hours>" ++ toString e ++ "</estimated_hours>"
   | none => "")

/-- The spent_hours line of the full template. -/
def fullSpentSection (issue : RedmineIssue) : String :=
  "\n  " ++
  (match issue.spent_hours with
   | some e => "<spent_hours>" ++ toString e ++ "</spent_hours>"
   | none => "")

/-- The description line of the full template, rendered when the escaped
description is truthy. -/
def fullDescriptionSection (issue : RedmineIssue) : String :=
  let safeDescription := escapeXml issue.description
  "\n  " ++
  (if safeDescription ≠ "" then
     "<description>" ++ safeDescription ++ "</description>"
   else "")

/-- The custom-fields block of the full template. -/
def fullCustomFieldsSection (issue : RedmineIssue) : String :=
  "\n  " ++
  (match issue.custom_fields with
   | some cfs => if cfs.length > 0 then formatCustomFields cfs else ""
   | none => "")

/-- The journals block of the full template. -/
def fullJournalsSection (issue : RedmineIssue) : String :=
  "\n  " ++
  (match issue.journals with
   | some js => if js.length > 0 then formatJournals js else ""
   | none => "")

/-- The created_on line of the full template (verbatim embedding). -/
def fullCreatedOnSection (issue : RedmineIssue) : String :=
  "\n  " ++
  (if issue.created_on ≠ "" then
     "<created_on>" ++ issue.created_on ++ "</created_on>"
   else "")

/-- The updated_on line of the full template (verbatim embedding). -/
def fullUpdatedOnSection (issue : RedmineIssue) : String :=
  "\n  " ++
  (if issue.updated_on ≠ "" then
     "<updated_on>" ++ issue.updated_on ++ "</updated_on>"
   else "")

/-- The closed_on line of the full template (verbatim embedding). -/
def fullClosedOnSection (issue : RedmineIssue) : String :=
  "\n  " ++
  (match issue.closed_on with
   | some d => if d ≠ "" then "<closed_on>" ++ d ++ "</closed_on>" else ""
   | none => "")

/-- The full-mode template of formatIssue, one section per template slot in
source order. -/
def formatIssueFull (issue : RedmineIssue) : String :=
  fullCoreSection issue ++
  fullAuthorSection issue ++
  fullAssignedSection issue ++
  fullCategorySection issue ++
  fullVersionSection issue ++
  fullParentSection issue ++
  fullStartDateSection issue ++
  fullDueDateSection issue ++
  fullProgressSection issue ++
  fullEstimatedSection issue ++
  fullSpentSection issue ++
  fullDescriptionSection issue ++
  fullCustomFieldsSection issue ++
  fullJournalsSection issue ++
  fullCreatedOnSection issue ++
  fullUpdatedOnSection issue ++
  fullClosedOnSection issue ++
  "\n</issue>"

/-- The JS short-circuit x || d on an optional number: undefined and zero both
fall back to the default. -/
def jsOr (o : Option Nat) (d : Nat) : Nat :=
  match o with
  | some v => if v = 0 then d else v
  | none => d

/--
Source: formatIssue in src/formatters/issues.ts.  No options or full detail
level uses the original full template; brief mode fills the brief fields and
limits from the options with || defaults and delegates to formatIssueBrief.
-/
def formatIssue (issue : RedmineIssue) (options : Option FormatOptions := none) :
    String :=
  match options with
  | none => formatIssueFull issue
  | some opts =>
    match opts.detail_level with
    | .full => formatIssueFull issue
    | .brief =>
      let briefFields :=
        match opts.brief_fields with
        | some bf => bf
        | none => createDefaultBriefFields
      let maxDescLength := jsOr opts.max_description_length 200
      let maxJournalEntries := jsOr opts.max_journal_entries 3
      formatIssueBrief issue briefFields maxDescLength (maxJournalEntries : Int)

/-- An untyped argument value as the options parser distinguishes them:
string, number, or anything else. -/
inductive JSVal where
  | str (s : String)
  | num (n : Int)
  | other
deriving Repr, DecidableEq

/-- The argument record of parseFormatOptions, restricted to the four keys the
parser reads; none means the key is absent. -/
structure RawArgs where
  detail_level : Option JSVal := none
  brief_fields : Option JSVal := none
  max_description_length : Option JSVal := none
  max_journal_entries : Option JSVal := none
deriving Repr, DecidableEq

/-- JS toLowerCase (ASCII case mapping suffices for every string compared). -/
def jsToLower (s : String) : String :=
  ⟨s.data.map Char.toLower⟩

/--
Source: parseFormatOptions in the format-options module.  JSON.parse is passed
in as a function returning none on a parse failure (the thrown error that the
source catches and logs); everything else is pure defensive coercion starting
from DEFAULT_FORMAT_OPTIONS.
-/
def parseFormatOptions (jsonParseBriefFields : String → Option BriefFieldOptions)
    (args : RawArgs) : FormatOptions :=
  let detail_level :=
    match args.detail_level with
    | some (.str s) =>
      let level := jsToLower s
      if level = "brief" then DetailLevel.brief
      else if level = "full" then DetailLevel.full
      else DetailLevel.full
    | _ => DetailLevel.full
  let brief_fields :=
    match args.brief_fields with
    | some (.str s) =>
      match jsonParseBriefFields s with
      | some bf => some bf
      | none => none
    | _ => none
  let max_description_length :=
    match args.max_description_length with
    | some (.num n) => some (Int.toNat (max 50 (min 1000 n)))
    | _ => some 200
  let max_journal_entries :=
    match args.max_journal_entries with
    | some (.num n) => some (Int.toNat (max 0 (min 10 n)))
    | _ => some 3
  ⟨detail_level, brief_fields, max_description_length, max_journal_entries⟩

/-- The textFilters argument of buildTextFilterParams: the three optional
text-filter values that list_issues reads off the validated parameters
(src/handlers/issues.ts, carried inside
src/.changeset/text-filtering-capability.md). -/
structure TextFilters where
  subject_filter : Option String := none
  description_filter : Option String := none
  notes_filter : Option String := none
deriving Repr, DecidableEq

/--
Source: one slot block of buildTextFilterParams in src/handlers/issues.ts
(src/.changeset/text-filtering-capability.md, lines 77 to 96).  The source
repeats this block for each of subject, description and notes: when the
slot value is truthy and trims to non-empty, the slot name is pushed onto
activeFilters and the entries op[name] = tilde and v[name][] = value are
inserted into filterParams; otherwise both stay unchanged.  The JS record
filterParams is an association list in key-insertion order (all keys written
by the function are pairwise distinct).
-/
def slotStep (name : String) (v : Option String)
    (acc : List (String × String) × List String) :
    List (String × String) × List String :=
  match v with
  | some s =>
    if s ≠ "" ∧ trimL s.data ≠ [] then
      (acc.1 ++ [("op[" ++ name ++ "]", "~"), ("v[" ++ name ++ "][]", s)],
       acc.2 ++ [name])
    else acc
  | none => acc

/-- The per-slot activity test of buildTextFilterParams: the value is present,
truthy and trims to non-empty. -/
def slotActive (v : Option String) : Bool :=
  match v with
  | some s => decide (s ≠ "") && decide (trimL s.data ≠ [])
  | none => false

/-- The filterParams and activeFilters pair accumulated by the three slot
blocks of buildTextFilterParams, in source order subject, description,
notes. -/
def textFilterAcc (textFilters : TextFilters) :
    List (String × String) × List String :=
  slotStep "notes" textFilters.notes_filter
    (slotStep "description" textFilters.description_filter
      (slotStep "subject" textFilters.subject_filter ([], [])))

/--
Source: buildTextFilterParams in src/handlers/issues.ts
(src/.changeset/text-filtering-capability.md, lines 65 to 104).  filterParams
and activeFilters start empty, the three slot blocks run in source order, and
finally, when activeFilters.length is positive, the f[] entry holding the
comma-joined active names is inserted; it is the last key written, so every
operator and value entry precedes it.
-/
def buildTextFilterParams (textFilters : TextFilters) : List (String × String) :=
  if 0 < (textFilterAcc textFilters).2.length then
    (textFilterAcc textFilters).1 ++
      [("f[]", String.intercalate "," (textFilterAcc textFilters).2)]
  else (textFilterAcc textFilters).1

/-- The activeFilters list of buildTextFilterParams. -/
def activeFilterNames (textFilters : TextFilters) : List String :=
  (textFilterAcc textFilters).2

/--
Source: finalParams = the spread of params then textFilterParams in
list_issues (src/.changeset/text-filtering-capability.md, line 188).
JavaScript object spread on string-keyed records: keys of the first record
keep their positions, a key present in both takes the second record value,
and keys only in the second record are appended in its insertion order.
-/
def jsSpreadMerge (ps qs : List (String × String)) : List (String × String) :=
  ps.map (fun p =>
    match qs.find? (fun q => q.1 == p.1) with
    | some q => (p.1, q.2)
    | none => p) ++
  qs.filter (fun q => !(ps.any (fun p => p.1 == q.1)))

/-- Source: list_issues in src/handlers/issues.ts: the final query passed to
the client merges the text-filter entries over the other list parameters. -/
def listIssuesFinalParams (params : List (String × String))
    (textFilters : TextFilters) : List (String × String) :=
  jsSpreadMerge params (buildTextFilterParams textFilters)

/-! Auxiliary predicates and spec-side definitions used to state the claims. -/

/-- needle is a leading segment of hay. -/
def hasPref : List Char → List Char → Bool
  | [], _ => true
  | _ :: _, [] => false
  | a :: as, b :: bs => a = b && hasPref as bs

/-- needle occurs contiguously somewhere in hay. -/
def hasSub (needle : List Char) : List Char → Bool
  | [] => hasPref needle []
  | a :: rest => hasPref needle (a :: rest) || hasSub needle rest

/-- Whether the rendered output contains the given marker text. -/
def outputContains (output marker : String) : Bool :=
  hasSub marker.data output.data

/-- The greatest position of a character satisfying p, as the spec's "find the
last such character within the prefix" reads. -/
def lastPosSuchThat (p : Char → Bool) (l : List Char) : Option Nat :=
  ((List.range l.length).filter (fun i =>
    match l[i]? with
    | some c => p c
    | none => false)).max?

/-- The truncation operation exactly as the claim words it: the cut happens at
the last whitespace character of the prefix whenever its position is at least
80 percent of maxLength. -/
def truncateTextClaim (text : String) (maxLength : Nat) : String :=
  if text.data.length ≤ maxLength then text
  else
    let pre := text.data.take maxLength
    match lastPosSuchThat isJsWs pre with
    | some p =>
      if 5 * p ≥ 4 * maxLength then ((pre.take p) ++ "...".data).asString
      else (pre ++ "...".data).asString
    | none => (pre ++ "...".data).asString

/-- The truncation operation as the amended claim words it: the cut happens at
the last space (U+0020) of the prefix whenever its position is strictly
greater than 80 percent of maxLength. -/
def truncateTextSpec (text : String) (maxLength : Nat) : String :=
  if text.data.length ≤ maxLength then text
  else
    let pre := text.data.take maxLength
    match lastPosSuchThat (· = ' ') pre with
    | some p =>
      if 5 * p > 4 * maxLength then ((pre.take p) ++ "...".data).asString
      else (pre ++ "...".data).asString
    | none => (pre ++ "...".data).asString

/-! Concrete fixtures used by witnesses and counterexamples (values mirror the
repository's mock issues). -/

/-- The simple mock issue of the test fixtures. -/
def simpleIssue : RedmineIssue :=
  { id := 1001
    subject := "Simple test issue"
    project := ⟨10, "Test Project"⟩
    tracker := ⟨1, "Bug"⟩
    status := ⟨1, "New"⟩
    priority := ⟨2, "Normal"⟩
    author := ⟨1, "Test Author"⟩
    assigned_to := none
    category := none
    fixed_version := none
    parent := none
    description := some "This is a simple test issue for brief mode testing."
    start_date := none
    due_date := none
    done_ratio := 0
    estimated_hours := none
    spent_hours := none
    custom_fields := none
    created_on := "2024-01-01T10:00:00Z"
    updated_on := "2024-01-01T10:00:00Z"
    closed_on := none
    journals := none
    relations := none }

/-- Five chronological journal entries. -/
def fiveJournals : List Journal :=
  [⟨1, ⟨1, "User 1"⟩, some "n1", false, "2024-01-01T10:00:00Z", none⟩,
   ⟨2, ⟨2, "User 2"⟩, some "n2", false, "2024-01-02T10:00:00Z", none⟩,
   ⟨3, ⟨1, "User 1"⟩, some "n3", false, "2024-01-03T10:00:00Z", none⟩,
   ⟨4, ⟨3, "User 3"⟩, some "n4", false, "2024-01-04T10:00:00Z", none⟩,
   ⟨5, ⟨2, "User 2"⟩, some "n5", false, "2024-01-05T10:00:00Z", none⟩]

/-- The simple issue with the five journal entries attached. -/
def issueWithJournals : RedmineIssue :=
  { simpleIssue with journals := some fiveJournals }

/-- A brief policy enabling only journals. -/
def journalsOnlyFields : BriefFieldOptions := { journals := true }

/-- A brief configuration that asks for zero journal entries. -/
def zeroJournalConfig : FormatOptions :=
  { detail_level := .brief
    brief_fields := some journalsOnlyFields
    max_journal_entries := some 0 }

/-- The simple issue with a timestamp holding a reserved character. -/
def issueWithMarkupDate : RedmineIssue :=
  { simpleIssue with created_on := "2024<x>" }

/-- Two non-empty custom fields named A and B. -/
def fieldA : CustomField := ⟨1, "A", .str "x"⟩

/-- The second of the two custom fields. -/
def fieldB : CustomField := ⟨2, "B", .str "y"⟩

/-- A brief configuration asking for two journal entries. -/
def twoJournalConfig : FormatOptions :=
  { detail_level := .brief
    brief_fields := some journalsOnlyFields
    max_journal_entries := some 2 }

/-- A JSON parser that fails on every input. -/
def jpFailing : String → Option BriefFieldOptions := fun _ => none

/-- Malformed caller arguments: uppercase detail level, unparseable
brief_fields, out-of-range numeric limits. -/
def malformedArgs : RawArgs :=
  { detail_level := some (.str "BRIEF")
    brief_fields := some (.str "not json")
    max_description_length := some (.num 25)
    max_journal_entries := some (.num 99) }

/-- Text filters with one active subject slot and one whitespace-only notes
slot. -/
def sampleFilters : TextFilters :=
  { subject_filter := some "test subject", notes_filter := some "   " }

/-- The closed form of the named-subset field selection: the issue's custom
fields whose name is requested and whose value is non-empty, in the order the
issue lists them. -/
def namedSubsetFields (cf : List CustomField) (l : List String) :
    List CustomField :=
  cf.filter (fun f => l.contains f.name && isCustomFieldNonEmpty f)

/-- The closed form of the named-subset warnings: one warning per requested
name whose first occurrence among the issue's custom fields is missing or
empty, in requested order. -/
def namedSubsetWarnings (cf : List CustomField) (l : List String) :
    List String :=
  (l.filter (fun r =>
    match cf.find? (fun f => f.name = r) with
    | none => true
    | some f => !isCustomFieldNonEmpty f)).map cfWarning

/-- Whether three consecutive newline characters occur (the pattern whose
absence makes the newline-collapsing pass of truncateDescription a no-op). -/
def hasTriple : List Char → Bool
  | a :: b :: c :: rest => (a = '\n' && b = '\n' && c = '\n') || hasTriple (b :: c :: rest)
  | _ => false

/-- An issue holding the two custom fields A and B. -/
def issueWithFieldsAB : RedmineIssue :=
  { simpleIssue with custom_fields := some [fieldA, fieldB] }

/-- A brief policy requesting the custom fields B then A by name. -/
def requestBA : BriefFieldOptions := { custom_fields := .names ["B", "A"] }

/-!
Helper lemmas shared by the claim theorems.
-/

/-- Every character of a replChar image comes from the replacement or is a
surviving character different from the replaced one. -/
theorem mem_replChar {x c : Char} {r l : List Char}
    (h : x ∈ replChar c r l) : x ∈ r ∨ (x ∈ l ∧ x ≠ c) := by
  induction l with
  | nil => simp [replChar] at h
  | cons a as ih =>
    simp only [replChar, List.mem_append] at h
    rcases h with h | h
    · by_cases hac : a = c
      · rw [if_pos hac] at h
        exact Or.inl h
      · rw [if_neg hac] at h
        simp only [List.mem_singleton] at h
        subst h
        exact Or.inr ⟨List.mem_cons_self _ _, hac⟩
    · rcases ih h with h' | ⟨h1, h2⟩
      · exact Or.inl h'
      · exact Or.inr ⟨List.mem_cons_of_mem _ h1, h2⟩

/-- The escapeXml image never contains an angle bracket or a quote (the
ampersands of the entities themselves remain). -/
theorem escapeXml_no_reserved (s : String) :
    '<' ∉ (escapeXml (some s)).data ∧ '>' ∉ (escapeXml (some s)).data ∧
    '"' ∉ (escapeXml (some s)).data ∧ '\'' ∉ (escapeXml (some s)).data := by
  have hdata : (escapeXml (some s)).data = escapeXmlL s.data := rfl
  rw [hdata]
  unfold escapeXmlL
  refine ⟨?_, ?_, ?_, ?_⟩ <;> intro hmem
  · rcases mem_replChar hmem with h | ⟨h, _⟩
    · revert h; decide
    rcases mem_replChar h with h | ⟨h, _⟩
    · revert h; decide
    rcases mem_replChar h with h | ⟨h, _⟩
    · revert h; decide
    rcases mem_replChar h with h | ⟨_, hne⟩
    · revert h; decide
    · exact hne rfl
  · rcases mem_replChar hmem with h | ⟨h, _⟩
    · revert h; decide
    rcases mem_replChar h with h | ⟨h, _⟩
    · revert h; decide
    rcases mem_replChar h with h | ⟨_, hne⟩
    · revert h; decide
    · exact hne rfl
  · rcases mem_replChar hmem with h | ⟨h, _⟩
    · revert h; decide
    rcases mem_replChar h with h | ⟨_, hne⟩
    · revert h; decide
    · exact hne rfl
  · rcases mem_replChar hmem with h | ⟨_, hne⟩
    · revert h; decide
    · exact hne rfl

/-- With a positive limit and a non-empty journal list the limited list is
non-empty. -/
theorem limitJournalEntries_ne_nil {js : List Journal} {v : Nat}
    (hne : js ≠ []) (hv : 1 ≤ v) :
    limitJournalEntries (some js) (v : Int) ≠ [] := by
  have hlen : 0 < js.length := List.length_pos.mpr hne
  unfold limitJournalEntries jsSliceFrom
  simp only [if_neg hne]
  have hneg : ¬ (0 : Int) ≤ -(v : Int) := by
    simp only [Int.neg_nonneg, not_le]
    exact_mod_cast hv
  rw [if_neg hneg]
  simp only [ne_eq, List.map_eq_nil_iff, List.drop_eq_nil_iff, not_le]
  simp only [Int.natAbs_neg, Int.natAbs_ofNat]
  omega

/-- String append acts as list append on the character data. -/
theorem string_data_append (a b : String) : (a ++ b).data = a.data ++ b.data := rfl

/-- Strings with equal character data are equal. -/
theorem string_eq_of_data {a b : String} (h : a.data = b.data) : a = b := by
  cases a; cases b; exact congrArg String.mk h

/-- slotStep in closed form: the activity test decides whether the operator
and value entries and the slot name are appended. -/
theorem slotStep_eq (name : String) (v : Option String)
    (acc : List (String × String) × List String) :
    slotStep name v acc =
      if slotActive v then
        (acc.1 ++ [("op[" ++ name ++ "]", "~"), ("v[" ++ name ++ "][]", jsStr v)],
         acc.2 ++ [name])
      else acc := by
  cases v with
  | none => rfl
  | some s =>
    show (if s ≠ "" ∧ trimL s.data ≠ [] then
        (acc.1 ++ [("op[" ++ name ++ "]", "~"), ("v[" ++ name ++ "][]", s)],
         acc.2 ++ [name])
      else acc) = _
    by_cases h : s ≠ "" ∧ trimL s.data ≠ []
    · rw [if_pos h, if_pos (show slotActive (some s) = true by
        simp only [slotActive, Bool.and_eq_true, decide_eq_true_eq]
        exact h)]
      rfl
    · rw [if_neg h, if_neg (show ¬slotActive (some s) = true by
        simpa [slotActive] using h)]

/-- The accumulated filterParams and activeFilters in closed form: one block
per slot, in source order subject, description, notes. -/
theorem textFilterAcc_eq (f : TextFilters) :
    textFilterAcc f =
      ((if slotActive f.subject_filter then
          [("op[subject]", "~"), ("v[subject][]", jsStr f.subject_filter)]
        else []) ++
       (if slotActive f.description_filter then
          [("op[description]", "~"),
           ("v[description][]", jsStr f.description_filter)]
        else []) ++
       (if slotActive f.notes_filter then
          [("op[notes]", "~"), ("v[notes][]", jsStr f.notes_filter)]
        else []),
       (if slotActive f.subject_filter then ["subject"] else []) ++
       (if slotActive f.description_filter then ["description"] else []) ++
       (if slotActive f.notes_filter then ["notes"] else [])) := by
  unfold textFilterAcc
  rw [slotStep_eq, slotStep_eq, slotStep_eq]
  simp only [show ("op[" ++ "subject" ++ "]" : String) = "op[subject]" from rfl,
    show ("v[" ++ "subject" ++ "][]" : String) = "v[subject][]" from rfl,
    show ("op[" ++ "description" ++ "]" : String) = "op[description]" from rfl,
    show ("v[" ++ "description" ++ "][]" : String) = "v[description][]" from rfl,
    show ("op[" ++ "notes" ++ "]" : String) = "op[notes]" from rfl,
    show ("v[" ++ "notes" ++ "][]" : String) = "v[notes][]" from rfl]
  by_cases h1 : slotActive f.subject_filter <;>
    by_cases h2 : slotActive f.description_filter <;>
      by_cases h3 : slotActive f.notes_filter <;>
        simp [h1, h2, h3]

/-- An entry of the accumulated filterParams is an entry of the built
parameters, whether or not the f[] entry gets appended after it. -/
theorem mem_build_of_mem_acc {f : TextFilters} {e : String × String}
    (h : e ∈ (textFilterAcc f).1) : e ∈ buildTextFilterParams f := by
  unfold buildTextFilterParams
  by_cases hn : 0 < (textFilterAcc f).2.length
  · rw [if_pos hn]
    exact List.mem_append_left _ h
  · rw [if_neg hn]
    exact h

/-- Entry inversion for the built parameters: an entry comes from the slot
blocks or is the final f[] entry. -/
theorem mem_build_inv {f : TextFilters} {e : String × String}
    (h : e ∈ buildTextFilterParams f) :
    e ∈ (textFilterAcc f).1 ∨ e.1 = "f[]" := by
  unfold buildTextFilterParams at h
  by_cases hn : 0 < (textFilterAcc f).2.length
  · rw [if_pos hn] at h
    rcases List.mem_append.mp h with h | h
    · exact Or.inl h
    · right
      rw [List.mem_singleton] at h
      rw [h]
  · rw [if_neg hn] at h
    exact Or.inl h

/-- Key inversion for the accumulated filterParams: every entry key is one of
the six operator or value keys, and its slot is active. -/
theorem mem_acc_keys {f : TextFilters} {e : String × String}
    (h : e ∈ (textFilterAcc f).1) :
    ((e.1 = "op[subject]" ∨ e.1 = "v[subject][]") ∧
      slotActive f.subject_filter = true) ∨
    ((e.1 = "op[description]" ∨ e.1 = "v[description][]") ∧
      slotActive f.description_filter = true) ∨
    ((e.1 = "op[notes]" ∨ e.1 = "v[notes][]") ∧
      slotActive f.notes_filter = true) := by
  rw [textFilterAcc_eq] at h
  dsimp only at h
  rcases List.mem_append.mp h with h | h
  · rcases List.mem_append.mp h with h | h
    · by_cases h1 : slotActive f.subject_filter
      · rw [if_pos h1] at h
        rcases List.mem_cons.mp h with h | h
        · exact Or.inl ⟨Or.inl (by rw [h]), h1⟩
        · rw [List.mem_singleton] at h
          exact Or.inl ⟨Or.inr (by rw [h]), h1⟩
      · rw [if_neg h1] at h
        exact absurd h (List.not_mem_nil e)
    · by_cases h2 : slotActive f.description_filter
      · rw [if_pos h2] at h
        rcases List.mem_cons.mp h with h | h
        · exact Or.inr (Or.inl ⟨Or.inl (by rw [h]), h2⟩)
        · rw [List.mem_singleton] at h
          exact Or.inr (Or.inl ⟨Or.inr (by rw [h]), h2⟩)
      · rw [if_neg h2] at h
        exact absurd h (List.not_mem_nil e)
  · by_cases h3 : slotActive f.notes_filter
    · rw [if_pos h3] at h
      rcases List.mem_cons.mp h with h | h
      · exact Or.inr (Or.inr ⟨Or.inl (by rw [h]), h3⟩)
      · rw [List.mem_singleton] at h
        exact Or.inr (Or.inr ⟨Or.inr (by rw [h]), h3⟩)
    · rw [if_neg h3] at h
      exact absurd h (List.not_mem_nil e)

/-- Name inversion for activeFilters: every listed name is one of the three
slot names, and its slot is active. -/
theorem mem_names_inv {f : TextFilters} {n : String}
    (h : n ∈ activeFilterNames f) :
    (n = "subject" ∧ slotActive f.subject_filter = true) ∨
    (n = "description" ∧ slotActive f.description_filter = true) ∨
    (n = "notes" ∧ slotActive f.notes_filter = true) := by
  unfold activeFilterNames at h
  rw [textFilterAcc_eq] at h
  dsimp only at h
  rcases List.mem_append.mp h with h | h
  · rcases List.mem_append.mp h with h | h
    · by_cases h1 : slotActive f.subject_filter
      · rw [if_pos h1] at h
        exact Or.inl ⟨List.mem_singleton.mp h, h1⟩
      · rw [if_neg h1] at h
        exact absurd h (List.not_mem_nil n)
    · by_cases h2 : slotActive f.description_filter
      · rw [if_pos h2] at h
        exact Or.inr (Or.inl ⟨List.mem_singleton.mp h, h2⟩)
      · rw [if_neg h2] at h
        exact absurd h (List.not_mem_nil n)
  · by_cases h3 : slotActive f.notes_filter
    · rw [if_pos h3] at h
      exact Or.inr (Or.inr ⟨List.mem_singleton.mp h, h3⟩)
    · rw [if_neg h3] at h
      exact absurd h (List.not_mem_nil n)

/-- Object spread over records with disjoint key sets is key-order
concatenation: nothing of the first record is replaced. -/
theorem jsSpreadMerge_disjoint {ps qs : List (String × String)}
    (h : ∀ p ∈ ps, ∀ q ∈ qs, p.1 ≠ q.1) :
    jsSpreadMerge ps qs = ps ++ qs := by
  unfold jsSpreadMerge
  congr 1
  · conv_rhs => rw [← List.map_id ps]
    refine List.map_congr_left (fun p hp => ?_)
    have hf : qs.find? (fun q => q.1 == p.1) = none := by
      rw [List.find?_eq_none]
      intro q hq
      simp only [beq_iff_eq]
      exact fun he => h p hp q hq he.symm
    rw [hf]
    rfl
  · refine List.filter_eq_self.mpr (fun q hq => ?_)
    have ha : ps.any (fun p => p.1 == q.1) = false := by
      rw [Bool.eq_false_iff]
      intro hc
      rcases List.any_eq_true.mp hc with ⟨p, hp, hpq⟩
      exact h p hp q hq (by simpa using hpq)
    rw [ha]
    rfl

/-- The field loop of selectCustomFields collects exactly the requested
non-empty fields, in the issue's order. -/
theorem scfLoop_fst (l : List String) (cf : List CustomField) :
    (scfLoop l cf).1 = namedSubsetFields cf l := by
  induction cf with
  | nil => rfl
  | cons field rest ih =>
    simp only [scfLoop, namedSubsetFields, List.filter_cons] at *
    by_cases hc : field.name ∈ l
    · by_cases hne : isCustomFieldNonEmpty field
      · simp [hc, hne, ih]
      · simp [hc, hne, ih]
    · simp [hc, ih]

/-- The found-name set of the field loop holds exactly the names shared by
the issue's fields and the request. -/
theorem scfLoop_found (l : List String) (cf : List CustomField) (r : String) :
    r ∈ (scfLoop l cf).2 ↔ ∃ f ∈ cf, f.name = r ∧ f.name ∈ l := by
  induction cf with
  | nil => simp [scfLoop]
  | cons field rest ih =>
    simp only [scfLoop]
    by_cases hc : field.name ∈ l
    · by_cases hne : isCustomFieldNonEmpty field
      · simp [hc, hne, ih]
        aesop
      · simp [hc, hne, ih]
        aesop
    · simp [hc, ih]

/-- One step of the warnings loop appends one warning exactly when the first
field of the requested name is missing or empty. -/
theorem scf_step_eq (cf : List CustomField) (l : List String) (r : String)
    (hr : r ∈ l) (ws : List String) :
    (if !(scfLoop l cf).2.contains r then ws ++ [cfWarning r]
     else match cf.find? (fun f => f.name = r) with
       | some foundField =>
         if !isCustomFieldNonEmpty foundField then ws ++ [cfWarning r] else ws
       | none => ws) =
    ws ++ (if (match cf.find? (fun f => f.name = r) with
               | none => true
               | some f => !isCustomFieldNonEmpty f) = true
           then [cfWarning r] else []) := by
  by_cases hfound : (scfLoop l cf).2.contains r = true
  · have hex : ∃ f ∈ cf, f.name = r ∧ f.name ∈ l :=
      (scfLoop_found l cf r).mp (List.elem_iff.mp hfound)
    have hsome : (cf.find? (fun f => f.name = r)).isSome := by
      rcases hex with ⟨f, hf, h1, _⟩
      exact List.find?_isSome.mpr ⟨f, hf, by simp [h1]⟩
    rcases ho : cf.find? (fun f => f.name = r) with _ | f₀
    · rw [ho] at hsome
      simp at hsome
    · simp only [hfound, Bool.not_true, Bool.false_eq_true, if_false]
      by_cases hne : isCustomFieldNonEmpty f₀
      · simp [ho, hne]
      · simp [ho, hne]
  · have hb : (scfLoop l cf).2.contains r = false :=
      Bool.eq_false_iff.mpr hfound
    have hnone : cf.find? (fun f => f.name = r) = none := by
      rw [List.find?_eq_none]
      intro f hf hp
      have h1 : f.name = r := by simpa using hp
      exact hfound (List.elem_iff.mpr
        ((scfLoop_found l cf r).mpr ⟨f, hf, h1, h1 ▸ hr⟩))
    simp [hb, hnone]
    exact fun hmem => hfound (List.elem_iff.mpr hmem)

/-- The warnings loop produces the requested-order warning list. -/
theorem scf_foldl_eq (cf : List CustomField) (l : List String) :
    ∀ (l' : List String), (∀ r ∈ l', r ∈ l) → ∀ acc : List String,
      l'.foldl (fun ws requestedName =>
        if !(scfLoop l cf).2.contains requestedName then
          ws ++ [cfWarning requestedName]
        else match cf.find? (fun f => f.name = requestedName) with
          | some foundField =>
            if !isCustomFieldNonEmpty foundField then
              ws ++ [cfWarning requestedName]
            else ws
          | none => ws) acc =
      acc ++ (l'.filter (fun r =>
        match cf.find? (fun f => f.name = r) with
        | none => true
        | some f => !isCustomFieldNonEmpty f)).map cfWarning := by
  intro l'
  induction l' with
  | nil => intro _ acc; simp
  | cons r l'' ih =>
    intro hsub acc
    have hr : r ∈ l := hsub r (List.mem_cons_self _ _)
    simp only [List.foldl_cons]
    rw [scf_step_eq cf l r hr acc]
    rw [ih (fun x hx => hsub x (List.mem_cons_of_mem _ hx))]
    by_cases hcond : (match cf.find? (fun f => f.name = r) with
               | none => true
               | some f => !isCustomFieldNonEmpty f) = true
    · simp [List.filter_cons, hcond]
    · simp [List.filter_cons, hcond]

/-- Round trip between a string and its character data. -/
theorem asString_data (s : String) : s.data.asString = s := rfl

/-- lastIdx returns minus one when the character is absent, and otherwise
the greatest index holding it. -/
theorem lastIdx_spec (c : Char) (l : List Char) :
    (lastIdx c l = -1 ∧ ∀ i : Nat, l[i]? ≠ some c) ∨
    (∃ p : Nat, lastIdx c l = (p : Int) ∧ l[p]? = some c ∧
      ∀ j : Nat, p < j → l[j]? ≠ some c) := by
  induction l with
  | nil =>
    left
    exact ⟨rfl, fun i => by simp⟩
  | cons a as ih =>
    rcases ih with ⟨h1, h2⟩ | ⟨p, h1, h2, h3⟩
    · by_cases hac : a = c
      · right
        refine ⟨0, ?_, by simp [hac], ?_⟩
        · simp [lastIdx, h1, hac]
        · intro j hj
          rcases j with _ | j'
          · omega
          · simpa using h2 j'
      · left
        refine ⟨by simp [lastIdx, h1, hac], ?_⟩
        intro i
        rcases i with _ | i'
        · simpa using hac
        · simpa using h2 i'
    · right
      refine ⟨p + 1, ?_, by simpa using h2, ?_⟩
      · have hge : lastIdx c as ≥ 0 := by rw [h1]; positivity
        simp [lastIdx, h1, hge]
      · intro j hj
        rcases j with _ | j'
        · omega
        · simpa using h3 j' (by omega)

/-- lastPosSuchThat misses when no position matches. -/
theorem lastPos_none (c : Char) (l : List Char)
    (h : ∀ i : Nat, l[i]? ≠ some c) :
    lastPosSuchThat (· = c) l = none := by
  unfold lastPosSuchThat
  rw [List.max?_eq_none_iff]
  rw [List.filter_eq_nil_iff]
  intro i hi
  rcases hg : l[i]? with _ | x
  · simp [hg]
  · simp only [hg]
    have hx : x ≠ c := fun hx => h i (hx ▸ hg)
    simp [hx]

/-- lastPosSuchThat returns the greatest matching position. -/
theorem lastPos_some (c : Char) (l : List Char) (p : Nat)
    (hmem : l[p]? = some c) (hmax : ∀ j, p < j → l[j]? ≠ some c) :
    lastPosSuchThat (· = c) l = some p := by
  unfold lastPosSuchThat
  rw [List.max?_eq_some_iff]
  · simp only [List.mem_filter, List.mem_range]
    refine ⟨⟨?_, by simp [hmem]⟩, ?_⟩
    · rcases List.getElem?_eq_some.mp hmem with ⟨hlt, _⟩
      exact hlt
    · intro b hb
      rcases hb with ⟨hlt, hpred⟩
      by_contra hgt
      push_neg at hgt
      rcases hg : l[b]? with _ | x
      · rw [hg] at hpred
        simp at hpred
      · rw [hg] at hpred
        simp at hpred
        exact hmax b hgt (hpred ▸ hg)
  · intro a
    omega
  · intro a b
    omega
  · intro a b d
    omega

/-!
Claim theorems.
-/

/-- C1: the claim (default brief policy uses description=truncated, so a brief
formatIssue call without brief_fields renders a truncated description element
for an issue with non-empty description) describes the documented intent and
the repository's own tests, but createDefaultBriefFields switches description
off, so the rendered output of such a call contains no description element at
all: the code contradicts its own test expectations. -/
theorem C1_default_brief_description_missing :
    createDefaultBriefFields.assignee = true ∧
    createDefaultBriefFields.dates = true ∧
    createDefaultBriefFields.description = DescOption.off ∧
    strTruthy simpleIssue.description = true ∧
    outputContains (formatIssue simpleIssue (some { detail_level := .brief }))
      "<description>" = false := by
  refine ⟨rfl, rfl, rfl, by decide, by decide⟩

/-- C2 counterexample: for the simple issue under the default brief policy the
brief rendering contains no author element, although the full rendering of the
same issue does, so the claim that both modes always contain all seven core
fields is false. -/
theorem C2_counterexample :
    outputContains (formatIssue simpleIssue (some { detail_level := .brief }))
      "<author>" = false ∧
    outputContains (formatIssue simpleIssue none)
      "<author>Test Author</author>" = true := by
  exact ⟨by decide, by decide⟩

/-- C3 counterexample: requesting the names in the order B then A returns the
fields in the issue's order A then B, not in the requested-name order, so the
claimed output order is false. -/
theorem C3_counterexample :
    (selectCustomFields [fieldA, fieldB] (.names ["B", "A"])).fields =
      [fieldA, fieldB] ∧
    (selectCustomFields [fieldA, fieldB] (.names ["B", "A"])).fields ≠
      [fieldB, fieldA] := by
  exact ⟨by decide, by decide⟩

/-- C2 amended: for every issue and every selection policy the brief rendering
opens with the six core elements id, subject, project, tracker, status and
priority, and the full rendering opens with those six followed by the author
element; the author element is what brief mode does not render. -/
theorem C2_amended_core_fields :
    (∀ (issue : RedmineIssue) (bf : BriefFieldOptions) (mdl : Nat) (mje : Int),
      ∃ rest, formatIssueBrief issue bf mdl mje =
        "<issue>\n  <id>" ++ toString issue.id ++
        "</id>\n  <subject>" ++ escapeXml (some issue.subject) ++
        "</subject>\n  <project>" ++ escapeXml (some issue.project.name) ++
        "</project>\n  <tracker>" ++ escapeXml (some issue.tracker.name) ++
        "</tracker>\n  <status>" ++ escapeXml (some issue.status.name) ++
        "</status>\n  <priority>" ++ escapeXml (some issue.priority.name) ++
        "</priority>" ++ rest) ∧
    (∀ issue : RedmineIssue,
      ∃ rest, formatIssue issue none =
        "<issue>\n  <id>" ++ toString issue.id ++
        "</id>\n  <subject>" ++ escapeXml (some issue.subject) ++
        "</subject>\n  <project>" ++ escapeXml (some issue.project.name) ++
        "</project>\n  <tracker>" ++ escapeXml (some issue.tracker.name) ++
        "</tracker>\n  <status>" ++ escapeXml (some issue.status.name) ++
        "</status>\n  <priority>" ++ escapeXml (some issue.priority.name) ++
        "</priority>" ++ "\n  " ++
        "<author>" ++ escapeXml (some issue.author.name) ++ "</author>" ++
        rest) := by
  constructor
  · intro issue bf mdl mje
    refine ⟨briefWarningsSection (selectFields issue bf).warnings ++
      (briefAssignedSection (selectFields issue bf).issue ++
      (briefDescriptionSection (selectFields issue bf).issue bf mdl ++
      (briefCategorySection (selectFields issue bf).issue bf ++
      (briefVersionSection (selectFields issue bf).issue bf ++
      (briefDatesSection (selectFields issue bf).issue bf ++
      (briefTimeTrackingSection (selectFields issue bf).issue bf ++
      (briefCustomFieldsSection (selectFields issue bf).issue bf ++
      (briefJournalsSection (selectFields issue bf).issue bf mje ++
      "\n</issue>")))))))), ?_⟩
    simp only [formatIssueBrief, briefCoreSection, selectFields,
      String.append_assoc]
  · intro issue
    refine ⟨fullAssignedSection issue ++
      (fullCategorySection issue ++
      (fullVersionSection issue ++
      (fullParentSection issue ++
      (fullStartDateSection issue ++
      (fullDueDateSection issue ++
      (fullProgressSection issue ++
      (fullEstimatedSection issue ++
      (fullSpentSection issue ++
      (fullDescriptionSection issue ++
      (fullCustomFieldsSection issue ++
      (fullJournalsSection issue ++
      (fullCreatedOnSection issue ++
      (fullUpdatedOnSection issue ++
      (fullClosedOnSection issue ++
      "\n</issue>")))))))))))))), ?_⟩
    simp only [formatIssue, formatIssueFull, fullCoreSection, fullAuthorSection,
      String.append_assoc]

/-- C3 amended: for every issue and named-subset policy, selectFields returns
exactly the requested fields that exist and are non-empty, in the issue's
custom-field order (not the requested-name order), and one warning per
requested name whose first occurrence is missing or empty, in requested-name
order. -/
theorem C3_amended_named_subset (cf : List CustomField) (l : List String) :
    (selectCustomFields cf (.names l)).fields = namedSubsetFields cf l ∧
    (selectCustomFields cf (.names l)).warnings = namedSubsetWarnings cf l ∧
    (∀ (issue : RedmineIssue) (opts : BriefFieldOptions),
      opts.custom_fields = .names l → issue.custom_fields = some cf →
      (selectFields issue opts).issue.custom_fields =
        some (namedSubsetFields cf l) ∧
      (selectFields issue opts).warnings =
        (if namedSubsetWarnings cf l = [] then none
         else some (namedSubsetWarnings cf l))) := by
  have hsel : selectCustomFields cf (.names l) =
      ⟨namedSubsetFields cf l, namedSubsetWarnings cf l⟩ := by
    by_cases hl : l = []
    · subst hl
      simp [selectCustomFields, namedSubsetFields, namedSubsetWarnings]
    · simp only [selectCustomFields, if_neg hl]
      rw [scfLoop_fst]
      refine congrArg (CustomFieldSelectionResult.mk _) ?_
      have := scf_foldl_eq cf l l (fun r hr => hr) []
      simpa [namedSubsetWarnings] using this
  refine ⟨by rw [hsel], by rw [hsel], ?_⟩
  intro issue opts hcf hic
  constructor
  · simp [selectFields, hcf, hic, CFOption.truthy, hsel]
  · simp only [selectFields, hcf, hic, CFOption.truthy, hsel]
    by_cases hw : namedSubsetWarnings cf l = []
    · simp [hw]
    · simp [hw]

/-- C3 witness: the named-subset law evaluated on the fields A and B with the
request B then A. -/
theorem C3_amended_named_subset_witness :
    (selectFields issueWithFieldsAB requestBA).issue.custom_fields =
      some (namedSubsetFields [fieldA, fieldB] ["B", "A"]) ∧
    (selectFields issueWithFieldsAB requestBA).warnings =
      (if namedSubsetWarnings [fieldA, fieldB] ["B", "A"] = [] then none
       else some (namedSubsetWarnings [fieldA, fieldB] ["B", "A"])) :=
  (C3_amended_named_subset [fieldA, fieldB] ["B", "A"]).2.2
    issueWithFieldsAB requestBA rfl rfl

/-- C5 counterexample: at a space sitting exactly at 80 percent of maxLength
the code does not cut (it compares strictly), and at a tab inside the final
20 percent the code does not cut either (it looks for a space, not for
whitespace), so the claimed cut rule (any whitespace, at-least-80-percent) is
false on both counts. -/
theorem C5_counterexample :
    truncateText "aaaaaaaaaaaaaaaa bcdefgh" 20 = "aaaaaaaaaaaaaaaa bcd..." ∧
    truncateTextClaim "aaaaaaaaaaaaaaaa bcdefgh" 20 = "aaaaaaaaaaaaaaaa..." ∧
    truncateText "aaaaaaaaaaaaaaaa bcdefgh" 20 ≠
      truncateTextClaim "aaaaaaaaaaaaaaaa bcdefgh" 20 ∧
    truncateText "aaaaaaaaaaaaaaaaa\tbbbbbb" 20 = "aaaaaaaaaaaaaaaaa\tbb..." ∧
    truncateTextClaim "aaaaaaaaaaaaaaaaa\tbbbbbb" 20 = "aaaaaaaaaaaaaaaaa..." ∧
    truncateText "aaaaaaaaaaaaaaaaa\tbbbbbb" 20 ≠
      truncateTextClaim "aaaaaaaaaaaaaaaaa\tbbbbbb" 20 := by
  refine ⟨by decide, by decide, by decide, by decide, by decide, by decide⟩

/-- C5 amended: truncateText returns short input unchanged and otherwise cuts
the prefix at the last space character (U+0020, not any whitespace) whenever
its position is strictly greater than (not at least) 80 percent of maxLength,
appending the ellipsis in both truncation cases; this equals the amended
specification function on every input. -/
theorem C5_amended_truncate_spec (text : String) (n : Nat) :
    truncateText text n = truncateTextSpec text n ∧
    (text.data.length ≤ n → truncateText text n = text) := by
  have hid : text.data.length ≤ n → truncateText text n = text := by
    intro hle
    unfold truncateText truncateTextL
    rw [if_pos (Or.inr hle)]
    exact asString_data text
  refine ⟨?_, hid⟩
  by_cases hle : text.data.length ≤ n
  · rw [hid hle]
    unfold truncateTextSpec
    rw [if_pos hle]
  · have hgne : ¬ (text.data = [] ∨ text.data.length ≤ n) := by
      rintro (h | h)
      · exact hle (by simp [h])
      · exact hle h
    unfold truncateText truncateTextL truncateTextSpec
    rw [if_neg hgne, if_neg hle]
    dsimp only
    rcases lastIdx_spec ' ' (text.data.take n) with ⟨h1, h2⟩ | ⟨p, h1, h2, h3⟩
    · rw [h1, lastPos_none ' ' _ h2]
      rw [if_neg (by omega : ¬ (5 * (-1 : Int) > 4 * (n : Int)))]
    · rw [h1, lastPos_some ' ' _ p h2 h3]
      dsimp only
      by_cases hcut : 5 * p > 4 * n
      · rw [if_pos (by exact_mod_cast hcut : 5 * ((p : Nat) : Int) > 4 * (n : Int))]
        rw [if_pos hcut]
        simp
      · rw [if_neg (by exact_mod_cast hcut : ¬ 5 * ((p : Nat) : Int) > 4 * (n : Int))]
        rw [if_neg hcut]

/-- C5 witness: the identity law evaluated at a string of exactly the limit
length. -/
theorem C5_amended_truncate_spec_witness :
    truncateText "Exactly twenty chars" 20 =
      truncateTextSpec "Exactly twenty chars" 20 ∧
    truncateText "Exactly twenty chars" 20 = "Exactly twenty chars" :=
  ⟨(C5_amended_truncate_spec "Exactly twenty chars" 20).1,
   (C5_amended_truncate_spec "Exactly twenty chars" 20).2 (by decide)⟩

/-- C4 counterexample: one cleaning-and-truncation pass is not idempotent: a
word-boundary truncation result is longer than maxLength and gets truncated
again, and a carriage return directly before a replaced CR LF pair forms a new
CR LF pair that only the second pass replaces. -/
theorem C4_counterexample :
    truncateDescription (some "aaaaaaaaaaaaaaaaaa bcdefg") 20 =
      "aaaaaaaaaaaaaaaaaa..." ∧
    truncateDescription
      (some (truncateDescription (some "aaaaaaaaaaaaaaaaaa bcdefg") 20)) 20 =
      "aaaaaaaaaaaaaaaaaa....." ∧
    truncateDescription (some "a\r\r\nb") 100 = "a\r\nb" ∧
    truncateDescription (some (truncateDescription (some "a\r\r\nb") 100)) 100 =
      "a\nb" := by
  refine ⟨by decide, by decide, by decide, by decide⟩

/-- C6 counterexample: with a configured max_journal_entries of zero the brief
rendering limits the journals with the fallback value three (the earliest two
of five entries are absent), whereas limitJournalEntries applied with zero
keeps all five entries, so the claim fails at the configured value zero. -/
theorem C6_counterexample :
    (limitJournalEntries (some fiveJournals) 0).map (fun j => j.id) =
      [1, 2, 3, 4, 5] ∧
    outputContains (formatIssue issueWithJournals (some zeroJournalConfig))
      "<id>1</id>" = false ∧
    outputContains (formatIssue issueWithJournals (some zeroJournalConfig))
      "<id>3</id>" = true ∧
    formatIssue issueWithJournals (some zeroJournalConfig) =
      formatIssueBrief issueWithJournals journalsOnlyFields 200 3 ∧
    formatIssue issueWithJournals (some zeroJournalConfig) ≠
      formatIssueBrief issueWithJournals journalsOnlyFields 200 0 := by
  refine ⟨by decide, by decide, by decide, by decide, by decide⟩

/-- C6 amended: the limit actually applied to the journal list is the
configured max_journal_entries only when the configured value is non-zero (the
short-circuit fallback turns zero into three); for every configured value of
at least one, a brief rendering whose policy enables journals embeds exactly
the formatJournals output of limitJournalEntries at that value. -/
theorem C6_amended_journal_limit (issue : RedmineIssue) (opts : FormatOptions)
    (bf : BriefFieldOptions) (v : Nat) (js : List Journal)
    (hlev : opts.detail_level = .brief)
    (hbf : opts.brief_fields = some bf)
    (hj : bf.journals = true)
    (hv : opts.max_journal_entries = some v)
    (hv1 : 1 ≤ v)
    (hjs : issue.journals = some js)
    (hne : js ≠ []) :
    ∃ p, formatIssue issue (some opts) =
      p ++ formatJournals (limitJournalEntries (some js) (v : Int)) ++
        "\n</issue>" := by
  obtain ⟨dl, obf, omdl, omje⟩ := opts
  simp only at hlev hbf hv
  subst hlev hbf hv
  have hveq : jsOr (some v) 3 = v := by
    simp only [jsOr]
    rw [if_neg (by omega : ¬ v = 0)]
  have hsj : (selectFields issue bf).issue.journals = some js := by
    simp [selectFields, hj, hjs]
  have hsec : briefJournalsSection (selectFields issue bf).issue bf (v : Int) =
      formatJournals (limitJournalEntries (some js) (v : Int)) := by
    rw [briefJournalsSection, hsj]
    simp only [hj, if_pos]
    rw [if_pos (limitJournalEntries_ne_nil hne hv1)]
  refine ⟨briefCoreSection (selectFields issue bf).issue ++
    (briefWarningsSection (selectFields issue bf).warnings ++
    (briefAssignedSection (selectFields issue bf).issue ++
    (briefDescriptionSection (selectFields issue bf).issue bf (jsOr omdl 200) ++
    (briefCategorySection (selectFields issue bf).issue bf ++
    (briefVersionSection (selectFields issue bf).issue bf ++
    (briefDatesSection (selectFields issue bf).issue bf ++
    (briefTimeTrackingSection (selectFields issue bf).issue bf ++
    briefCustomFieldsSection (selectFields issue bf).issue bf))))))), ?_⟩
  simp only [formatIssue, hveq, formatIssueBrief, hsec, String.append_assoc]

/-- C6 amended witness: the amended law evaluated at the five mock journal
entries with a configured limit of two. -/
theorem C6_amended_journal_limit_witness :
    ∃ p, formatIssue issueWithJournals (some twoJournalConfig) =
      p ++ formatJournals (limitJournalEntries (some fiveJournals) ((2 : Nat) : Int)) ++
        "\n</issue>" :=
  C6_amended_journal_limit issueWithJournals twoJournalConfig
    journalsOnlyFields 2 fiveJournals rfl rfl rfl rfl (by decide) rfl (by decide)

/-- C8 counterexample: a timestamp is embedded verbatim, so a reserved
character inside created_on reaches the full-mode output unescaped, refuting
the claim that every embedded piece of text content is escaped. -/
theorem C8_counterexample :
    outputContains (formatIssue issueWithMarkupDate none)
      "<created_on>2024<x></created_on>" = true ∧
    outputContains (formatIssue issueWithMarkupDate none) "2024&lt;" = false := by
  exact ⟨by decide, by decide⟩


theorem sappend_empty (s : String) : s ++ "" = s :=
  string_eq_of_data (by rw [string_data_append]; exact List.append_nil _)

theorem sempty_append (s : String) : "" ++ s = s :=
  string_eq_of_data (by rw [string_data_append]; rfl)

theorem sfoldl_join : ∀ (l : List String) (init : String),
    l.foldl (fun r s => r ++ s) init = init ++ String.join l := by
  intro l
  induction l with
  | nil =>
    intro init
    show init = init ++ String.join []
    rw [show String.join ([] : List String) = "" from rfl, sappend_empty]
  | cons x xs ih =>
    intro init
    show xs.foldl _ (init ++ x) = init ++ String.join (x :: xs)
    rw [ih]
    have hx : String.join (x :: xs) = x ++ String.join xs := by
      show xs.foldl _ ("" ++ x) = x ++ String.join xs
      rw [sempty_append, ih]
    rw [hx, String.append_assoc]

theorem sjoin_cons (x : String) (l : List String) :
    String.join (x :: l) = x ++ String.join l := by
  show l.foldl _ ("" ++ x) = x ++ String.join l
  rw [sempty_append, sfoldl_join]

theorem sjoin_append (a b : List String) :
    String.join (a ++ b) = String.join a ++ String.join b := by
  induction a with
  | nil =>
    rw [List.nil_append, show String.join ([] : List String) = "" from rfl,
      sempty_append]
  | cons x xs ih =>
    rw [List.cons_append, sjoin_cons, sjoin_cons, ih, String.append_assoc]

theorem warnings_foldl_split : ∀ (ws : List String) (init : String),
    ws.foldl (fun acc warning =>
      acc ++ "\n    <warning>" ++ escapeXml (some warning) ++ "</warning>") init =
    init ++ String.join (ws.map (fun w =>
      "\n    <warning>" ++ escapeXml (some w) ++ "</warning>")) := by
  intro ws
  induction ws with
  | nil =>
    intro init
    show init = init ++ String.join ([].map _)
    rw [List.map_nil, show String.join ([] : List String) = "" from rfl,
      sappend_empty]
  | cons x xs ih =>
    intro init
    show xs.foldl _ (init ++ "\n    <warning>" ++ escapeXml (some x) ++ "</warning>")
      = _
    rw [ih, List.map_cons, sjoin_cons]
    simp only [String.append_assoc]

theorem formatCustomField_shape (field : CustomField) :
    ∃ v, formatCustomField field =
      "\n    <field>\n      <id>" ++ toString field.id ++
      "</id>\n      <name>" ++ escapeXml (some field.name) ++
      "</name>\n      <value>" ++ v ++ "</value>\n    </field>" ∧
      (v = "" ∨ ∃ t, v = escapeXml (some t)) := by
  refine ⟨match field.value with
    | .null => ""
    | .arr l => escapeXml (some (String.intercalate ", " l))
    | .str s => escapeXml (some s), rfl, ?_⟩
  rcases field.value with s | l | _
  · exact Or.inr ⟨s, rfl⟩
  · exact Or.inr ⟨String.intercalate ", " l, rfl⟩
  · exact Or.inl rfl

theorem formatJournalDetail_shape (detail : JournalDetail) :
    ∃ ov nv, formatJournalDetail detail =
      "\n        <detail>\n          <property>" ++ escapeXml (some detail.property) ++
      "</property>\n          <name>" ++ escapeXml (some detail.name) ++
      "</name>\n          " ++ ov ++ "\n          " ++ nv ++ "\n        </detail>" ∧
      (ov = "" ∨ ∃ t, ov = "<old_value>" ++ escapeXml (some t) ++ "</old_value>") ∧
      (nv = "" ∨ ∃ t, nv = "<new_value>" ++ escapeXml (some t) ++ "</new_value>") := by
  refine ⟨match detail.old_value with
    | some v => "<old_value>" ++ escapeXml (some v) ++ "</old_value>"
    | none => "",
    match detail.new_value with
    | some v => "<new_value>" ++ escapeXml (some v) ++ "</new_value>"
    | none => "", rfl, ?_, ?_⟩
  · rcases detail.old_value with _ | v
    · exact Or.inl rfl
    · exact Or.inr ⟨v, rfl⟩
  · rcases detail.new_value with _ | v
    · exact Or.inl rfl
    · exact Or.inr ⟨v, rfl⟩

theorem formatJournalEntry_shape (j : Journal) :
    ∃ pn notes dets, formatJournalEntry j =
      "\n    <journal>\n      <id>" ++ toString j.id ++
      "</id>\n      <user>" ++ escapeXml (some j.user.name) ++
      "</user>\n      <created_on>" ++ j.created_on ++
      "</created_on>\n      " ++ pn ++ "\n      " ++ notes ++ "\n      " ++
      dets ++ "\n    </journal>" ∧
      (pn = "" ∨ pn = "<private_notes>true</private_notes>") ∧
      (notes = "" ∨ ∃ t, j.notes = some t ∧
        notes = "<notes>" ++ escapeXml (some t) ++ "</notes>") ∧
      (dets = "" ∨ ∃ ds, j.details = some ds ∧ 0 < ds.length ∧
        dets = "\n      <details>\n        " ++
          String.join (ds.map formatJournalDetail) ++ "\n      </details>") := by
  refine ⟨if j.private_notes then "<private_notes>true</private_notes>" else "",
    match j.notes with
    | some s => "<notes>" ++ escapeXml (some s) ++ "</notes>"
    | none => "",
    match j.details with
    | some ds =>
      if ds.length > 0 then
        "\n      <details>\n        " ++
        String.join (ds.map formatJournalDetail) ++ "\n      </details>"
      else ""
    | none => "", rfl, ?_, ?_, ?_⟩
  · rcases hb : j.private_notes
    · exact Or.inl (if_neg (by simp [hb]))
    · exact Or.inr (if_pos (by simp [hb]))
  · rcases hn : j.notes with _ | s
    · exact Or.inl rfl
    · exact Or.inr ⟨s, rfl, rfl⟩
  · rcases hd : j.details with _ | ds
    · exact Or.inl rfl
    · by_cases hl : ds.length > 0
      · exact Or.inr ⟨ds, rfl, hl, if_pos hl⟩
      · exact Or.inl (if_neg hl)

theorem formatIssue_full_sections (issue : RedmineIssue) :
    formatIssue issue none =
      fullCoreSection issue ++ (fullAuthorSection issue ++ (fullAssignedSection issue ++
      (fullCategorySection issue ++ (fullVersionSection issue ++ (fullParentSection issue ++
      (fullStartDateSection issue ++ (fullDueDateSection issue ++ (fullProgressSection issue ++
      (fullEstimatedSection issue ++ (fullSpentSection issue ++ (fullDescriptionSection issue ++
      (fullCustomFieldsSection issue ++ (fullJournalsSection issue ++
      (fullCreatedOnSection issue ++ (fullUpdatedOnSection issue ++
      (fullClosedOnSection issue ++ "\n</issue>")))))))))))))))) := by
  simp only [formatIssue, formatIssueFull, String.append_assoc]

theorem formatIssueBrief_sections (issue : RedmineIssue) (bf : BriefFieldOptions)
    (mdl : Nat) (mje : Int) :
    formatIssueBrief issue bf mdl mje =
      briefCoreSection (selectFields issue bf).issue ++
      (briefWarningsSection (selectFields issue bf).warnings ++
      (briefAssignedSection (selectFields issue bf).issue ++
      (briefDescriptionSection (selectFields issue bf).issue bf mdl ++
      (briefCategorySection (selectFields issue bf).issue bf ++
      (briefVersionSection (selectFields issue bf).issue bf ++
      (briefDatesSection (selectFields issue bf).issue bf ++
      (briefTimeTrackingSection (selectFields issue bf).issue bf ++
      (briefCustomFieldsSection (selectFields issue bf).issue bf ++
      (briefJournalsSection (selectFields issue bf).issue bf mje ++
      "\n</issue>"))))))))) := by
  simp only [formatIssueBrief, String.append_assoc]

theorem briefDescriptionSection_shape (s : SelectedIssue)
    (opts : BriefFieldOptions) (mdl : Nat) :
    briefDescriptionSection s opts mdl = "" ∨
    ∃ o, briefDescriptionSection s opts mdl =
      "\n  <description>" ++ escapeXml o ++ "</description>" := by
  rcases hdo : opts.description with _ | _ | _
  · rw [briefDescriptionSection, hdo]
    rw [if_neg (fun hc => by simpa [DescOption.truthy] using hc.2)]
    exact Or.inl rfl
  · rw [briefDescriptionSection, hdo]
    by_cases hc : strTruthy s.description ∧ DescOption.truthy .on
    · rw [if_pos hc]
      exact Or.inr ⟨s.description, rfl⟩
    · rw [if_neg hc]
      exact Or.inl rfl
  · rw [briefDescriptionSection, hdo]
    by_cases hc : strTruthy s.description ∧ DescOption.truthy .truncated
    · rw [if_pos hc]
      by_cases ht : truncateDescription s.description mdl ≠ ""
      · right
        refine ⟨some (truncateDescription s.description mdl), ?_⟩
        show (if truncateDescription s.description mdl ≠ "" then
            "\n  <description>" ++
              escapeXml (some (truncateDescription s.description mdl)) ++
              "</description>"
          else "") = _
        rw [if_pos ht]
      · left
        show (if truncateDescription s.description mdl ≠ "" then
            "\n  <description>" ++
              escapeXml (some (truncateDescription s.description mdl)) ++
              "</description>"
          else "") = ""
        rw [if_neg ht]
    · rw [if_neg hc]
      exact Or.inl rfl

theorem briefDatesSection_split (s : SelectedIssue) (bf : BriefFieldOptions)
    (hdates : bf.dates = true) :
    ∃ m1 m2, briefDatesSection s bf =
      m1 ++ (m2 ++ ("\n  <created_on>" ++ (jsStr s.created_on ++ ("</created_on>" ++
        ("\n  <updated_on>" ++ (jsStr s.updated_on ++ "</updated_on>")))))) ∧
      (∀ d, s.start_date = some d → d ≠ "" →
        m1 = "\n  <start_date>" ++ d ++ "</start_date>") ∧
      (∀ d, s.due_date = some d → d ≠ "" →
        m2 = "\n  <due_date>" ++ d ++ "</due_date>") := by
  rcases hst : s.start_date with _ | d1
  · rcases hdu : s.due_date with _ | d2
    · refine ⟨"", "", ?_, ?_, ?_⟩
      · rw [briefDatesSection, if_pos hdates, hst, hdu]
        simp only [String.append_assoc]
      · intro d hd hne
        cases hd
      · intro d hd hne
        cases hd
    · by_cases hne2 : d2 ≠ ""
      · refine ⟨"", "\n  <due_date>" ++ d2 ++ "</due_date>", ?_, ?_, ?_⟩
        · rw [briefDatesSection, if_pos hdates, hst, hdu]
          simp only [if_pos hne2, String.append_assoc]
        · intro d hd hne
          cases hd
        · intro d hd hne
          cases hd
          rfl
      · refine ⟨"", "", ?_, ?_, ?_⟩
        · rw [briefDatesSection, if_pos hdates, hst, hdu]
          simp only [if_neg hne2, String.append_assoc]
        · intro d hd hne
          cases hd
        · intro d hd hne
          cases hd
          exact absurd hne hne2
  · by_cases hne1 : d1 ≠ ""
    · rcases hdu : s.due_date with _ | d2
      · refine ⟨"\n  <start_date>" ++ d1 ++ "</start_date>", "", ?_, ?_, ?_⟩
        · rw [briefDatesSection, if_pos hdates, hst, hdu]
          simp only [if_pos hne1, String.append_assoc]
        · intro d hd hne
          cases hd
          rfl
        · intro d hd hne
          cases hd
      · by_cases hne2 : d2 ≠ ""
        · refine ⟨"\n  <start_date>" ++ d1 ++ "</start_date>",
            "\n  <due_date>" ++ d2 ++ "</due_date>", ?_, ?_, ?_⟩
          · rw [briefDatesSection, if_pos hdates, hst, hdu]
            simp only [if_pos hne1, if_pos hne2, String.append_assoc]
          · intro d hd hne
            cases hd
            rfl
          · intro d hd hne
            cases hd
            rfl
        · refine ⟨"\n  <start_date>" ++ d1 ++ "</start_date>", "", ?_, ?_, ?_⟩
          · rw [briefDatesSection, if_pos hdates, hst, hdu]
            simp only [if_pos hne1, if_neg hne2, String.append_assoc]
          · intro d hd hne
            cases hd
            rfl
          · intro d hd hne
            cases hd
            exact absurd hne hne2
    · rcases hdu : s.due_date with _ | d2
      · refine ⟨"", "", ?_, ?_, ?_⟩
        · rw [briefDatesSection, if_pos hdates, hst, hdu]
          simp only [if_neg hne1, String.append_assoc]
        · intro d hd hne
          cases hd
          exact absurd hne hne1
        · intro d hd hne
          cases hd
      · by_cases hne2 : d2 ≠ ""
        · refine ⟨"", "\n  <due_date>" ++ d2 ++ "</due_date>", ?_, ?_, ?_⟩
          · rw [briefDatesSection, if_pos hdates, hst, hdu]
            simp only [if_neg hne1, if_pos hne2, String.append_assoc]
          · intro d hd hne
            cases hd
            exact absurd hne hne1
          · intro d hd hne
            cases hd
            rfl
        · refine ⟨"", "", ?_, ?_, ?_⟩
          · rw [briefDatesSection, if_pos hdates, hst, hdu]
            simp only [if_neg hne1, if_neg hne2, String.append_assoc]
          · intro d hd hne
            cases hd
            exact absurd hne hne1
          · intro d hd hne
            cases hd
            exact absurd hne hne2

/-- C8 (amended): every piece of text content the formatters embed passes
through escapeXml, whose image contains no angle bracket and no quote; the
date and timestamp strings (start_date, due_date, created_on, updated_on,
closed_on and each journal created_on) are embedded verbatim in both modes.
In full mode the six core names, the author, an assigned, category or version
name, the description, each custom-field name and value, each journal user
name, its notes and each change detail are rendered through escapeXml, while
the five issue date slots appear verbatim; in brief mode the five core names,
each warning, assigned, category and version name, the (possibly truncated)
description, custom fields and journals are escaped likewise, while the four
date slots of the dates block appear verbatim. -/
theorem C8_amended_escaping :
    (∀ s : String,
      '<' ∉ (escapeXml (some s)).data ∧ '>' ∉ (escapeXml (some s)).data ∧
      '"' ∉ (escapeXml (some s)).data ∧ '\'' ∉ (escapeXml (some s)).data) ∧
    (∀ issue : RedmineIssue, ∃ rest, formatIssue issue none =
      "<issue>\n  <id>" ++ toString issue.id ++
      "</id>\n  <subject>" ++ escapeXml (some issue.subject) ++
      "</subject>\n  <project>" ++ escapeXml (some issue.project.name) ++
      "</project>\n  <tracker>" ++ escapeXml (some issue.tracker.name) ++
      "</tracker>\n  <status>" ++ escapeXml (some issue.status.name) ++
      "</status>\n  <priority>" ++ escapeXml (some issue.priority.name) ++
      "</priority>" ++ "\n  " ++
      "<author>" ++ escapeXml (some issue.author.name) ++ "</author>" ++ rest) ∧
    (∀ (issue : RedmineIssue) (u : NamedRef), issue.assigned_to = some u →
      ∃ a b, formatIssue issue none =
        a ++ ("<assigned_to>" ++ escapeXml (some u.name) ++ "</assigned_to>") ++ b) ∧
    (∀ (issue : RedmineIssue) (c : NamedRef), issue.category = some c →
      ∃ a b, formatIssue issue none =
        a ++ ("<category>" ++ escapeXml (some c.name) ++ "</category>") ++ b) ∧
    (∀ (issue : RedmineIssue) (v : NamedRef), issue.fixed_version = some v →
      ∃ a b, formatIssue issue none =
        a ++ ("<version>" ++ escapeXml (some v.name) ++ "</version>") ++ b) ∧
    (∀ issue : RedmineIssue, escapeXml issue.description ≠ "" →
      ∃ a b, formatIssue issue none =
        a ++ ("<description>" ++ escapeXml issue.description ++ "</description>") ++ b) ∧
    (∀ (issue : RedmineIssue) (cfs : List CustomField),
      issue.custom_fields = some cfs → cfs.length > 0 → ∀ cf ∈ cfs,
      ∃ a b, formatIssue issue none = a ++ formatCustomField cf ++ b) ∧
    (∀ field : CustomField, ∃ v, formatCustomField field =
      "\n    <field>\n      <id>" ++ toString field.id ++
      "</id>\n      <name>" ++ escapeXml (some field.name) ++
      "</name>\n      <value>" ++ v ++ "</value>\n    </field>" ∧
      (v = "" ∨ ∃ t, v = escapeXml (some t))) ∧
    (∀ (issue : RedmineIssue) (js : List Journal),
      issue.journals = some js → js.length > 0 → ∀ j ∈ js,
      ∃ a b, formatIssue issue none = a ++ formatJournalEntry j ++ b) ∧
    (∀ j : Journal, ∃ pn notes dets, formatJournalEntry j =
      "\n    <journal>\n      <id>" ++ toString j.id ++
      "</id>\n      <user>" ++ escapeXml (some j.user.name) ++
      "</user>\n      <created_on>" ++ j.created_on ++
      "</created_on>\n      " ++ pn ++ "\n      " ++ notes ++ "\n      " ++
      dets ++ "\n    </journal>" ∧
      (pn = "" ∨ pn = "<private_notes>true</private_notes>") ∧
      (notes = "" ∨ ∃ t, j.notes = some t ∧
        notes = "<notes>" ++ escapeXml (some t) ++ "</notes>") ∧
      (dets = "" ∨ ∃ ds, j.details = some ds ∧ 0 < ds.length ∧
        dets = "\n      <details>\n        " ++
          String.join (ds.map formatJournalDetail) ++ "\n      </details>")) ∧
    (∀ detail : JournalDetail, ∃ ov nv, formatJournalDetail detail =
      "\n        <detail>\n          <property>" ++ escapeXml (some detail.property) ++
      "</property>\n          <name>" ++ escapeXml (some detail.name) ++
      "</name>\n          " ++ ov ++ "\n          " ++ nv ++ "\n        </detail>" ∧
      (ov = "" ∨ ∃ t, ov = "<old_value>" ++ escapeXml (some t) ++ "</old_value>") ∧
      (nv = "" ∨ ∃ t, nv = "<new_value>" ++ escapeXml (some t) ++ "</new_value>")) ∧
    (∀ (issue : RedmineIssue) (d : String), issue.start_date = some d → d ≠ "" →
      ∃ a b, formatIssue issue none =
        a ++ ("<start_date>" ++ d ++ "</start_date>") ++ b) ∧
    (∀ (issue : RedmineIssue) (d : String), issue.due_date = some d → d ≠ "" →
      ∃ a b, formatIssue issue none =
        a ++ ("<due_date>" ++ d ++ "</due_date>") ++ b) ∧
    (∀ issue : RedmineIssue, issue.created_on ≠ "" →
      ∃ a b, formatIssue issue none =
        a ++ ("<created_on>" ++ issue.created_on ++ "</created_on>") ++ b) ∧
    (∀ issue : RedmineIssue, issue.updated_on ≠ "" →
      ∃ a b, formatIssue issue none =
        a ++ ("<updated_on>" ++ issue.updated_on ++ "</updated_on>") ++ b) ∧
    (∀ (issue : RedmineIssue) (d : String), issue.closed_on = some d → d ≠ "" →
      ∃ a b, formatIssue issue none =
        a ++ ("<closed_on>" ++ d ++ "</closed_on>") ++ b) ∧
    (∀ (issue : RedmineIssue) (bf : BriefFieldOptions) (mdl : Nat) (mje : Int),
      ∃ rest, formatIssueBrief issue bf mdl mje =
        "<issue>\n  <id>" ++ toString issue.id ++
        "</id>\n  <subject>" ++ escapeXml (some issue.subject) ++
        "</subject>\n  <project>" ++ escapeXml (some issue.project.name) ++
        "</project>\n  <tracker>" ++ escapeXml (some issue.tracker.name) ++
        "</tracker>\n  <status>" ++ escapeXml (some issue.status.name) ++
        "</status>\n  <priority>" ++ escapeXml (some issue.priority.name) ++
        "</priority>" ++ rest) ∧
    (∀ (issue : RedmineIssue) (bf : BriefFieldOptions) (mdl : Nat) (mje : Int)
      (ws : List String), (selectFields issue bf).warnings = some ws → ws ≠ [] →
      ∀ w ∈ ws, ∃ a b, formatIssueBrief issue bf mdl mje =
        a ++ ("\n    <warning>" ++ escapeXml (some w) ++ "</warning>") ++ b) ∧
    (∀ (issue : RedmineIssue) (bf : BriefFieldOptions) (mdl : Nat) (mje : Int)
      (u : NamedRef), (selectFields issue bf).issue.assigned_to = some u →
      ∃ a b, formatIssueBrief issue bf mdl mje =
        a ++ ("\n  <assigned_to>" ++ escapeXml (some u.name) ++ "</assigned_to>") ++ b) ∧
    (∀ (s : SelectedIssue) (opts : BriefFieldOptions) (mdl : Nat),
      briefDescriptionSection s opts mdl = "" ∨
      ∃ o, briefDescriptionSection s opts mdl =
        "\n  <description>" ++ escapeXml o ++ "</description>") ∧
    (∀ (issue : RedmineIssue) (bf : BriefFieldOptions) (mdl : Nat) (mje : Int),
      ∃ a b, formatIssueBrief issue bf mdl mje =
        a ++ briefDescriptionSection (selectFields issue bf).issue bf mdl ++ b) ∧
    (∀ (issue : RedmineIssue) (bf : BriefFieldOptions) (mdl : Nat) (mje : Int)
      (c : NamedRef), (selectFields issue bf).issue.category = some c →
      bf.category = true →
      ∃ a b, formatIssueBrief issue bf mdl mje =
        a ++ ("\n  <category>" ++ escapeXml (some c.name) ++ "</category>") ++ b) ∧
    (∀ (issue : RedmineIssue) (bf : BriefFieldOptions) (mdl : Nat) (mje : Int)
      (v : NamedRef), (selectFields issue bf).issue.fixed_version = some v →
      bf.version = true →
      ∃ a b, formatIssueBrief issue bf mdl mje =
        a ++ ("\n  <version>" ++ escapeXml (some v.name) ++ "</version>") ++ b) ∧
    (∀ (issue : RedmineIssue) (bf : BriefFieldOptions) (mdl : Nat) (mje : Int)
      (cfs : List CustomField),
      (selectFields issue bf).issue.custom_fields = some cfs →
      bf.custom_fields.truthy = true → cfs.length > 0 → ∀ cf ∈ cfs,
      ∃ a b, formatIssueBrief issue bf mdl mje = a ++ formatCustomField cf ++ b) ∧
    (∀ (issue : RedmineIssue) (bf : BriefFieldOptions) (mdl : Nat) (mje : Int)
      (js : List Journal), (selectFields issue bf).issue.journals = some js →
      bf.journals = true → limitJournalEntries (some js) mje ≠ [] →
      ∀ j ∈ limitJournalEntries (some js) mje,
      ∃ a b, formatIssueBrief issue bf mdl mje = a ++ formatJournalEntry j ++ b) ∧
    (∀ (issue : RedmineIssue) (bf : BriefFieldOptions) (mdl : Nat) (mje : Int),
      bf.dates = true →
      (∀ d, (selectFields issue bf).issue.start_date = some d → d ≠ "" →
        ∃ a b, formatIssueBrief issue bf mdl mje =
          a ++ ("\n  <start_date>" ++ d ++ "</start_date>") ++ b) ∧
      (∀ d, (selectFields issue bf).issue.due_date = some d → d ≠ "" →
        ∃ a b, formatIssueBrief issue bf mdl mje =
          a ++ ("\n  <due_date>" ++ d ++ "</due_date>") ++ b) ∧
      (∃ a b, formatIssueBrief issue bf mdl mje =
        a ++ ("\n  <created_on>" ++
          jsStr (selectFields issue bf).issue.created_on ++ "</created_on>") ++ b) ∧
      (∃ a b, formatIssueBrief issue bf mdl mje =
        a ++ ("\n  <updated_on>" ++
          jsStr (selectFields issue bf).issue.updated_on ++ "</updated_on>") ++ b)) := by
  refine ⟨?_, ?_, ?_, ?_, ?_, ?_, ?_, ?_, ?_, ?_, ?_, ?_, ?_, ?_, ?_, ?_, ?_, ?_, ?_, ?_, ?_, ?_, ?_, ?_, ?_, ?_⟩
  · exact escapeXml_no_reserved
  · intro issue
    refine ⟨fullAssignedSection issue ++
      (fullCategorySection issue ++
      (fullVersionSection issue ++
      (fullParentSection issue ++
      (fullStartDateSection issue ++
      (fullDueDateSection issue ++
      (fullProgressSection issue ++
      (fullEstimatedSection issue ++
      (fullSpentSection issue ++
      (fullDescriptionSection issue ++
      (fullCustomFieldsSection issue ++
      (fullJournalsSection issue ++
      (fullCreatedOnSection issue ++
      (fullUpdatedOnSection issue ++
      (fullClosedOnSection issue ++
      ("\n</issue>"))))))))))))))), ?_⟩
    simp only [formatIssue, formatIssueFull, fullCoreSection, fullAuthorSection,
      String.append_assoc]
  · intro issue u hu
    have hsec : fullAssignedSection issue =
        "\n  " ++ ("<assigned_to>" ++ escapeXml (some u.name) ++ "</assigned_to>") := by
      rw [fullAssignedSection, hu]
    refine ⟨fullCoreSection issue ++
      (fullAuthorSection issue ++
      ("\n  ")),
      fullCategorySection issue ++
        (fullVersionSection issue ++
        (fullParentSection issue ++
        (fullStartDateSection issue ++
        (fullDueDateSection issue ++
        (fullProgressSection issue ++
        (fullEstimatedSection issue ++
        (fullSpentSection issue ++
        (fullDescriptionSection issue ++
        (fullCustomFieldsSection issue ++
        (fullJournalsSection issue ++
        (fullCreatedOnSection issue ++
        (fullUpdatedOnSection issue ++
        (fullClosedOnSection issue ++
        ("\n</issue>")))))))))))))), ?_⟩
    rw [formatIssue_full_sections, hsec]
    simp only [String.append_assoc]
  · intro issue c hc
    have hsec : fullCategorySection issue =
        "\n  " ++ ("<category>" ++ escapeXml (some c.name) ++ "</category>") := by
      rw [fullCategorySection, hc]
    refine ⟨fullCoreSection issue ++
      (fullAuthorSection issue ++
      (fullAssignedSection issue ++
      ("\n  "))),
      fullVersionSection issue ++
        (fullParentSection issue ++
        (fullStartDateSection issue ++
        (fullDueDateSection issue ++
        (fullProgressSection issue ++
        (fullEstimatedSection issue ++
        (fullSpentSection issue ++
        (fullDescriptionSection issue ++
        (fullCustomFieldsSection issue ++
        (fullJournalsSection issue ++
        (fullCreatedOnSection issue ++
        (fullUpdatedOnSection issue ++
        (fullClosedOnSection issue ++
        ("\n</issue>"))))))))))))), ?_⟩
    rw [formatIssue_full_sections, hsec]
    simp only [String.append_assoc]
  · intro issue v hv
    have hsec : fullVersionSection issue =
        "\n  " ++ ("<version>" ++ escapeXml (some v.name) ++ "</version>") := by
      rw [fullVersionSection, hv]
    refine ⟨fullCoreSection issue ++
      (fullAuthorSection issue ++
      (fullAssignedSection issue ++
      (fullCategorySection issue ++
      ("\n  ")))),
      fullParentSection issue ++
        (fullStartDateSection issue ++
        (fullDueDateSection issue ++
        (fullProgressSection issue ++
        (fullEstimatedSection issue ++
        (fullSpentSection issue ++
        (fullDescriptionSection issue ++
        (fullCustomFieldsSection issue ++
        (fullJournalsSection issue ++
        (fullCreatedOnSection issue ++
        (fullUpdatedOnSection issue ++
        (fullClosedOnSection issue ++
        ("\n</issue>")))))))))))), ?_⟩
    rw [formatIssue_full_sections, hsec]
    simp only [String.append_assoc]
  · intro issue hd
    have hsec : fullDescriptionSection issue =
        "\n  " ++ ("<description>" ++ escapeXml issue.description ++ "</description>") := by
      show "\n  " ++ (if escapeXml issue.description ≠ "" then
          "<description>" ++ escapeXml issue.description ++ "</description>" else "") = _
      rw [if_pos hd]
    refine ⟨fullCoreSection issue ++
      (fullAuthorSection issue ++
      (fullAssignedSection issue ++
      (fullCategorySection issue ++
      (fullVersionSection issue ++
      (fullParentSection issue ++
      (fullStartDateSection issue ++
      (fullDueDateSection issue ++
      (fullProgressSection issue ++
      (fullEstimatedSection issue ++
      (fullSpentSection issue ++
      ("\n  "))))))))))),
      fullCustomFieldsSection issue ++
        (fullJournalsSection issue ++
        (fullCreatedOnSection issue ++
        (fullUpdatedOnSection issue ++
        (fullClosedOnSection issue ++
        ("\n</issue>"))))), ?_⟩
    rw [formatIssue_full_sections, hsec]
    simp only [String.append_assoc]
  · intro issue cfs hcf hlen cf hmem
    rcases List.append_of_mem hmem with ⟨l1, l2, rfl⟩
    have hsec : fullCustomFieldsSection issue =
        "\n  " ++ ("\n  <custom_fields>\n    " ++
          (String.join (l1.map formatCustomField) ++
           (formatCustomField cf ++ String.join (l2.map formatCustomField))) ++
          "\n  </custom_fields>") := by
      rw [fullCustomFieldsSection, hcf]
      simp only [if_pos hlen]
      rw [formatCustomFields, List.map_append, List.map_cons, sjoin_append,
        sjoin_cons]
    refine ⟨fullCoreSection issue ++
      (fullAuthorSection issue ++
      (fullAssignedSection issue ++
      (fullCategorySection issue ++
      (fullVersionSection issue ++
      (fullParentSection issue ++
      (fullStartDateSection issue ++
      (fullDueDateSection issue ++
      (fullProgressSection issue ++
      (fullEstimatedSection issue ++
      (fullSpentSection issue ++
      (fullDescriptionSection issue ++
      ("\n  " ++
      ("\n  <custom_fields>\n    " ++
      (String.join (l1.map formatCustomField))))))))))))))),
      String.join (l2.map formatCustomField) ++
        ("\n  </custom_fields>" ++
        (fullJournalsSection issue ++
        (fullCreatedOnSection issue ++
        (fullUpdatedOnSection issue ++
        (fullClosedOnSection issue ++
        ("\n</issue>")))))), ?_⟩
    rw [formatIssue_full_sections, hsec]
    simp only [String.append_assoc]
  · exact formatCustomField_shape
  · intro issue js hjs hlen j hmem
    rcases List.append_of_mem hmem with ⟨l1, l2, rfl⟩
    have hsec : fullJournalsSection issue =
        "\n  " ++ ("\n  <journals>\n    " ++
          (String.join (l1.map formatJournalEntry) ++
           (formatJournalEntry j ++ String.join (l2.map formatJournalEntry))) ++
          "\n  </journals>") := by
      rw [fullJournalsSection, hjs]
      simp only [if_pos hlen]
      rw [formatJournals, List.map_append, List.map_cons, sjoin_append,
        sjoin_cons]
    refine ⟨fullCoreSection issue ++
      (fullAuthorSection issue ++
      (fullAssignedSection issue ++
      (fullCategorySection issue ++
      (fullVersionSection issue ++
      (fullParentSection issue ++
      (fullStartDateSection issue ++
      (fullDueDateSection issue ++
      (fullProgressSection issue ++
      (fullEstimatedSection issue ++
      (fullSpentSection issue ++
      (fullDescriptionSection issue ++
      (fullCustomFieldsSection issue ++
      ("\n  " ++
      ("\n  <journals>\n    " ++
      (String.join (l1.map formatJournalEntry)))))))))))))))),
      String.join (l2.map formatJournalEntry) ++
        ("\n  </journals>" ++
        (fullCreatedOnSection issue ++
        (fullUpdatedOnSection issue ++
        (fullClosedOnSection issue ++
        ("\n</issue>"))))), ?_⟩
    rw [formatIssue_full_sections, hsec]
    simp only [String.append_assoc]
  · exact formatJournalEntry_shape
  · exact formatJournalDetail_shape
  · intro issue d hd hne
    have hsec : fullStartDateSection issue =
        "\n  " ++ ("<start_date>" ++ d ++ "</start_date>") := by
      rw [fullStartDateSection, hd]
      simp only [if_pos hne]
    refine ⟨fullCoreSection issue ++
      (fullAuthorSection issue ++
      (fullAssignedSection issue ++
      (fullCategorySection issue ++
      (fullVersionSection issue ++
      (fullParentSection issue ++
      ("\n  ")))))),
      fullDueDateSection issue ++
        (fullProgressSection issue ++
        (fullEstimatedSection issue ++
        (fullSpentSection issue ++
        (fullDescriptionSection issue ++
        (fullCustomFieldsSection issue ++
        (fullJournalsSection issue ++
        (fullCreatedOnSection issue ++
        (fullUpdatedOnSection issue ++
        (fullClosedOnSection issue ++
        ("\n</issue>")))))))))), ?_⟩
    rw [formatIssue_full_sections, hsec]
    simp only [String.append_assoc]
  · intro issue d hd hne
    have hsec : fullDueDateSection issue =
        "\n  " ++ ("<due_date>" ++ d ++ "</due_date>") := by
      rw [fullDueDateSection, hd]
      simp only [if_pos hne]
    refine ⟨fullCoreSection issue ++
      (fullAuthorSection issue ++
      (fullAssignedSection issue ++
      (fullCategorySection issue ++
      (fullVersionSection issue ++
      (fullParentSection issue ++
      (fullStartDateSection issue ++
      ("\n  "))))))),
      fullProgressSection issue ++
        (fullEstimatedSection issue ++
        (fullSpentSection issue ++
        (fullDescriptionSection issue ++
        (fullCustomFieldsSection issue ++
        (fullJournalsSection issue ++
        (fullCreatedOnSection issue ++
        (fullUpdatedOnSection issue ++
        (fullClosedOnSection issue ++
        ("\n</issue>"))))))))), ?_⟩
    rw [formatIssue_full_sections, hsec]
    simp only [String.append_assoc]
  · intro issue hco
    have hsec : fullCreatedOnSection issue =
        "\n  " ++ ("<created_on>" ++ issue.created_on ++ "</created_on>") := by
      rw [fullCreatedOnSection, if_pos hco]
    refine ⟨fullCoreSection issue ++
      (fullAuthorSection issue ++
      (fullAssignedSection issue ++
      (fullCategorySection issue ++
      (fullVersionSection issue ++
      (fullParentSection issue ++
      (fullStartDateSection issue ++
      (fullDueDateSection issue ++
      (fullProgressSection issue ++
      (fullEstimatedSection issue ++
      (fullSpentSection issue ++
      (fullDescriptionSection issue ++
      (fullCustomFieldsSection issue ++
      (fullJournalsSection issue ++
      ("\n  ")))))))))))))),
      fullUpdatedOnSection issue ++
        (fullClosedOnSection issue ++
        ("\n</issue>")), ?_⟩
    rw [formatIssue_full_sections, hsec]
    simp only [String.append_assoc]
  · intro issue hup
    have hsec : fullUpdatedOnSection issue =
        "\n  " ++ ("<updated_on>" ++ issue.updated_on ++ "</updated_on>") := by
      rw [fullUpdatedOnSection, if_pos hup]
    refine ⟨fullCoreSection issue ++
      (fullAuthorSection issue ++
      (fullAssignedSection issue ++
      (fullCategorySection issue ++
      (fullVersionSection issue ++
      (fullParentSection issue ++
      (fullStartDateSection issue ++
      (fullDueDateSection issue ++
      (fullProgressSection issue ++
      (fullEstimatedSection issue ++
      (fullSpentSection issue ++
      (fullDescriptionSection issue ++
      (fullCustomFieldsSection issue ++
      (fullJournalsSection issue ++
      (fullCreatedOnSection issue ++
      ("\n  "))))))))))))))),
      fullClosedOnSection issue ++
        ("\n</issue>"), ?_⟩
    rw [formatIssue_full_sections, hsec]
    simp only [String.append_assoc]
  · intro issue d hd hne
    have hsec : fullClosedOnSection issue =
        "\n  " ++ ("<closed_on>" ++ d ++ "</closed_on>") := by
      rw [fullClosedOnSection, hd]
      simp only [if_pos hne]
    refine ⟨fullCoreSection issue ++
      (fullAuthorSection issue ++
      (fullAssignedSection issue ++
      (fullCategorySection issue ++
      (fullVersionSection issue ++
      (fullParentSection issue ++
      (fullStartDateSection issue ++
      (fullDueDateSection issue ++
      (fullProgressSection issue ++
      (fullEstimatedSection issue ++
      (fullSpentSection issue ++
      (fullDescriptionSection issue ++
      (fullCustomFieldsSection issue ++
      (fullJournalsSection issue ++
      (fullCreatedOnSection issue ++
      (fullUpdatedOnSection issue ++
      ("\n  ")))))))))))))))),
      "\n</issue>", ?_⟩
    rw [formatIssue_full_sections, hsec]
    simp only [String.append_assoc]
  · intro issue bf mdl mje
    refine ⟨briefWarningsSection (selectFields issue bf).warnings ++
      (briefAssignedSection (selectFields issue bf).issue ++
      (briefDescriptionSection (selectFields issue bf).issue bf mdl ++
      (briefCategorySection (selectFields issue bf).issue bf ++
      (briefVersionSection (selectFields issue bf).issue bf ++
      (briefDatesSection (selectFields issue bf).issue bf ++
      (briefTimeTrackingSection (selectFields issue bf).issue bf ++
      (briefCustomFieldsSection (selectFields issue bf).issue bf ++
      (briefJournalsSection (selectFields issue bf).issue bf mje ++
      ("\n</issue>"))))))))), ?_⟩
    simp only [formatIssueBrief, briefCoreSection, selectFields,
      String.append_assoc]
  · intro issue bf mdl mje ws hws hne w hmem
    rcases List.append_of_mem hmem with ⟨l1, l2, rfl⟩
    have hsec : briefWarningsSection (selectFields issue bf).warnings =
        "\n  <warnings>" ++
        (String.join (l1.map (fun x =>
          "\n    <warning>" ++ escapeXml (some x) ++ "</warning>")) ++
         (("\n    <warning>" ++ escapeXml (some w) ++ "</warning>") ++
          String.join (l2.map (fun x =>
            "\n    <warning>" ++ escapeXml (some x) ++ "</warning>")))) ++
        "\n  </warnings>" := by
      rw [hws, briefWarningsSection]
      simp only [if_pos hne]
      rw [warnings_foldl_split, sempty_append, List.map_append, List.map_cons,
        sjoin_append, sjoin_cons]
    refine ⟨briefCoreSection (selectFields issue bf).issue ++
      ("\n  <warnings>" ++
      (String.join (l1.map (fun x =>
        "\n    <warning>" ++ escapeXml (some x) ++ "</warning>")))),
      String.join (l2.map (fun x =>
        "\n    <warning>" ++ escapeXml (some x) ++ "</warning>")) ++
        ("\n  </warnings>" ++
        (briefAssignedSection (selectFields issue bf).issue ++
        (briefDescriptionSection (selectFields issue bf).issue bf mdl ++
        (briefCategorySection (selectFields issue bf).issue bf ++
        (briefVersionSection (selectFields issue bf).issue bf ++
        (briefDatesSection (selectFields issue bf).issue bf ++
        (briefTimeTrackingSection (selectFields issue bf).issue bf ++
        (briefCustomFieldsSection (selectFields issue bf).issue bf ++
        (briefJournalsSection (selectFields issue bf).issue bf mje ++
        ("\n</issue>")))))))))), ?_⟩
    rw [formatIssueBrief_sections, hsec]
    simp only [String.append_assoc]
  · intro issue bf mdl mje u hu
    have hsec : briefAssignedSection (selectFields issue bf).issue =
        "\n  <assigned_to>" ++ escapeXml (some u.name) ++ "</assigned_to>" := by
      rw [briefAssignedSection, hu]
    refine ⟨briefCoreSection (selectFields issue bf).issue ++
      (briefWarningsSection (selectFields issue bf).warnings),
      briefDescriptionSection (selectFields issue bf).issue bf mdl ++
        (briefCategorySection (selectFields issue bf).issue bf ++
        (briefVersionSection (selectFields issue bf).issue bf ++
        (briefDatesSection (selectFields issue bf).issue bf ++
        (briefTimeTrackingSection (selectFields issue bf).issue bf ++
        (briefCustomFieldsSection (selectFields issue bf).issue bf ++
        (briefJournalsSection (selectFields issue bf).issue bf mje ++
        ("\n</issue>"))))))), ?_⟩
    rw [formatIssueBrief_sections, hsec]
    simp only [String.append_assoc]
  · exact briefDescriptionSection_shape
  · intro issue bf mdl mje
    refine ⟨briefCoreSection (selectFields issue bf).issue ++
      (briefWarningsSection (selectFields issue bf).warnings ++
      (briefAssignedSection (selectFields issue bf).issue)),
      briefCategorySection (selectFields issue bf).issue bf ++
        (briefVersionSection (selectFields issue bf).issue bf ++
        (briefDatesSection (selectFields issue bf).issue bf ++
        (briefTimeTrackingSection (selectFields issue bf).issue bf ++
        (briefCustomFieldsSection (selectFields issue bf).issue bf ++
        (briefJournalsSection (selectFields issue bf).issue bf mje ++
        ("\n</issue>")))))), ?_⟩
    rw [formatIssueBrief_sections]
    simp only [String.append_assoc]
  · intro issue bf mdl mje c hc hcat
    have hsec : briefCategorySection (selectFields issue bf).issue bf =
        "\n  <category>" ++ escapeXml (some c.name) ++ "</category>" := by
      rw [briefCategorySection, hc]
      simp only [if_pos hcat]
    refine ⟨briefCoreSection (selectFields issue bf).issue ++
      (briefWarningsSection (selectFields issue bf).warnings ++
      (briefAssignedSection (selectFields issue bf).issue ++
      (briefDescriptionSection (selectFields issue bf).issue bf mdl))),
      briefVersionSection (selectFields issue bf).issue bf ++
        (briefDatesSection (selectFields issue bf).issue bf ++
        (briefTimeTrackingSection (selectFields issue bf).issue bf ++
        (briefCustomFieldsSection (selectFields issue bf).issue bf ++
        (briefJournalsSection (selectFields issue bf).issue bf mje ++
        ("\n</issue>"))))), ?_⟩
    rw [formatIssueBrief_sections, hsec]
    simp only [String.append_assoc]
  · intro issue bf mdl mje v hv hver
    have hsec : briefVersionSection (selectFields issue bf).issue bf =
        "\n  <version>" ++ escapeXml (some v.name) ++ "</version>" := by
      rw [briefVersionSection, hv]
      simp only [if_pos hver]
    refine ⟨briefCoreSection (selectFields issue bf).issue ++
      (briefWarningsSection (selectFields issue bf).warnings ++
      (briefAssignedSection (selectFields issue bf).issue ++
      (briefDescriptionSection (selectFields issue bf).issue bf mdl ++
      (briefCategorySection (selectFields issue bf).issue bf)))),
      briefDatesSection (selectFields issue bf).issue bf ++
        (briefTimeTrackingSection (selectFields issue bf).issue bf ++
        (briefCustomFieldsSection (selectFields issue bf).issue bf ++
        (briefJournalsSection (selectFields issue bf).issue bf mje ++
        ("\n</issue>")))), ?_⟩
    rw [formatIssueBrief_sections, hsec]
    simp only [String.append_assoc]
  · intro issue bf mdl mje cfs hcf htr hlen cf hmem
    rcases List.append_of_mem hmem with ⟨l1, l2, rfl⟩
    have hsec : briefCustomFieldsSection (selectFields issue bf).issue bf =
        "\n  <custom_fields>\n    " ++
        (String.join (l1.map formatCustomField) ++
         (formatCustomField cf ++ String.join (l2.map formatCustomField))) ++
        "\n  </custom_fields>" := by
      rw [briefCustomFieldsSection, hcf]
      simp only [if_pos htr, if_pos hlen]
      rw [formatCustomFields, List.map_append, List.map_cons, sjoin_append,
        sjoin_cons]
    refine ⟨briefCoreSection (selectFields issue bf).issue ++
      (briefWarningsSection (selectFields issue bf).warnings ++
      (briefAssignedSection (selectFields issue bf).issue ++
      (briefDescriptionSection (selectFields issue bf).issue bf mdl ++
      (briefCategorySection (selectFields issue bf).issue bf ++
      (briefVersionSection (selectFields issue bf).issue bf ++
      (briefDatesSection (selectFields issue bf).issue bf ++
      (briefTimeTrackingSection (selectFields issue bf).issue bf ++
      ("\n  <custom_fields>\n    " ++
      (String.join (l1.map formatCustomField)))))))))),
      String.join (l2.map formatCustomField) ++
        ("\n  </custom_fields>" ++
        (briefJournalsSection (selectFields issue bf).issue bf mje ++
        ("\n</issue>"))), ?_⟩
    rw [formatIssueBrief_sections, hsec]
    simp only [String.append_assoc]
  · intro issue bf mdl mje js hjs hopt hne j hmem
    rcases List.append_of_mem hmem with ⟨l1, l2, hsplit⟩
    have hsec : briefJournalsSection (selectFields issue bf).issue bf mje =
        "\n  <journals>\n    " ++
        (String.join (l1.map formatJournalEntry) ++
         (formatJournalEntry j ++ String.join (l2.map formatJournalEntry))) ++
        "\n  </journals>" := by
      rw [briefJournalsSection, hjs]
      simp only [if_pos hopt]
      show (if limitJournalEntries (some js) mje ≠ [] then
          formatJournals (limitJournalEntries (some js) mje) else "") = _
      rw [if_pos hne, hsplit, formatJournals, List.map_append, List.map_cons,
        sjoin_append, sjoin_cons]
    refine ⟨briefCoreSection (selectFields issue bf).issue ++
      (briefWarningsSection (selectFields issue bf).warnings ++
      (briefAssignedSection (selectFields issue bf).issue ++
      (briefDescriptionSection (selectFields issue bf).issue bf mdl ++
      (briefCategorySection (selectFields issue bf).issue bf ++
      (briefVersionSection (selectFields issue bf).issue bf ++
      (briefDatesSection (selectFields issue bf).issue bf ++
      (briefTimeTrackingSection (selectFields issue bf).issue bf ++
      (briefCustomFieldsSection (selectFields issue bf).issue bf ++
      ("\n  <journals>\n    " ++
      (String.join (l1.map formatJournalEntry))))))))))),
      String.join (l2.map formatJournalEntry) ++
        ("\n  </journals>" ++
        ("\n</issue>")), ?_⟩
    rw [formatIssueBrief_sections, hsec]
    simp only [String.append_assoc]
  · intro issue bf mdl mje hdates
    rcases briefDatesSection_split (selectFields issue bf).issue bf hdates with
      ⟨m1, m2, heq, hm1, hm2⟩
    refine ⟨?_, ?_, ?_, ?_⟩
    · intro d hd hne
      rw [hm1 d hd hne] at heq
      refine ⟨briefCoreSection (selectFields issue bf).issue ++
        (briefWarningsSection (selectFields issue bf).warnings ++
        (briefAssignedSection (selectFields issue bf).issue ++
        (briefDescriptionSection (selectFields issue bf).issue bf mdl ++
        (briefCategorySection (selectFields issue bf).issue bf ++
        (briefVersionSection (selectFields issue bf).issue bf))))),
        m2 ++
          ("\n  <created_on>" ++
          (jsStr (selectFields issue bf).issue.created_on ++
          ("</created_on>" ++
          ("\n  <updated_on>" ++
          (jsStr (selectFields issue bf).issue.updated_on ++
          ("</updated_on>" ++
          (briefTimeTrackingSection (selectFields issue bf).issue bf ++
          (briefCustomFieldsSection (selectFields issue bf).issue bf ++
          (briefJournalsSection (selectFields issue bf).issue bf mje ++
          ("\n</issue>")))))))))), ?_⟩
      rw [formatIssueBrief_sections, heq]
      simp only [String.append_assoc]
    · intro d hd hne
      rw [hm2 d hd hne] at heq
      refine ⟨briefCoreSection (selectFields issue bf).issue ++
        (briefWarningsSection (selectFields issue bf).warnings ++
        (briefAssignedSection (selectFields issue bf).issue ++
        (briefDescriptionSection (selectFields issue bf).issue bf mdl ++
        (briefCategorySection (selectFields issue bf).issue bf ++
        (briefVersionSection (selectFields issue bf).issue bf ++
        (m1)))))),
        "\n  <created_on>" ++
          (jsStr (selectFields issue bf).issue.created_on ++
          ("</created_on>" ++
          ("\n  <updated_on>" ++
          (jsStr (selectFields issue bf).issue.updated_on ++
          ("</updated_on>" ++
          (briefTimeTrackingSection (selectFields issue bf).issue bf ++
          (briefCustomFieldsSection (selectFields issue bf).issue bf ++
          (briefJournalsSection (selectFields issue bf).issue bf mje ++
          ("\n</issue>"))))))))), ?_⟩
      rw [formatIssueBrief_sections, heq]
      simp only [String.append_assoc]
    · refine ⟨briefCoreSection (selectFields issue bf).issue ++
        (briefWarningsSection (selectFields issue bf).warnings ++
        (briefAssignedSection (selectFields issue bf).issue ++
        (briefDescriptionSection (selectFields issue bf).issue bf mdl ++
        (briefCategorySection (selectFields issue bf).issue bf ++
        (briefVersionSection (selectFields issue bf).issue bf ++
        (m1 ++
        (m2))))))),
        "\n  <updated_on>" ++
          (jsStr (selectFields issue bf).issue.updated_on ++
          ("</updated_on>" ++
          (briefTimeTrackingSection (selectFields issue bf).issue bf ++
          (briefCustomFieldsSection (selectFields issue bf).issue bf ++
          (briefJournalsSection (selectFields issue bf).issue bf mje ++
          ("\n</issue>")))))), ?_⟩
      rw [formatIssueBrief_sections, heq]
      simp only [String.append_assoc]
    · refine ⟨briefCoreSection (selectFields issue bf).issue ++
        (briefWarningsSection (selectFields issue bf).warnings ++
        (briefAssignedSection (selectFields issue bf).issue ++
        (briefDescriptionSection (selectFields issue bf).issue bf mdl ++
        (briefCategorySection (selectFields issue bf).issue bf ++
        (briefVersionSection (selectFields issue bf).issue bf ++
        (m1 ++
        (m2 ++
        ("\n  <created_on>" ++
        (jsStr (selectFields issue bf).issue.created_on ++
        ("</created_on>")))))))))),
        briefTimeTrackingSection (selectFields issue bf).issue bf ++
          (briefCustomFieldsSection (selectFields issue bf).issue bf ++
          (briefJournalsSection (selectFields issue bf).issue bf mje ++
          ("\n</issue>"))), ?_⟩
      rw [formatIssueBrief_sections, heq]
      simp only [String.append_assoc]

/-- C8 witness: the escaping and verbatim-date laws evaluated at the simple
mock issue (full description, full and brief created_on) and at the
two-custom-field issue (rendered field fragment of field A). -/
theorem C8_amended_escaping_witness :
    (∃ a b, formatIssue simpleIssue none =
      a ++ ("<description>" ++ escapeXml simpleIssue.description ++
        "</description>") ++ b) ∧
    (∃ a b, formatIssue simpleIssue none =
      a ++ ("<created_on>" ++ simpleIssue.created_on ++ "</created_on>") ++ b) ∧
    (∃ a b, formatIssue issueWithFieldsAB none =
      a ++ formatCustomField fieldA ++ b) ∧
    (∃ a b, formatIssueBrief simpleIssue createDefaultBriefFields 200 3 =
      a ++ ("\n  <created_on>" ++
        jsStr (selectFields simpleIssue createDefaultBriefFields).issue.created_on ++
        "</created_on>") ++ b) := by
  have h := C8_amended_escaping
  refine ⟨h.2.2.2.2.2.1 simpleIssue (by decide),
    h.2.2.2.2.2.2.2.2.2.2.2.2.2.1 simpleIssue (by decide),
    h.2.2.2.2.2.2.1 issueWithFieldsAB [fieldA, fieldB] rfl (by decide) fieldA
      (List.mem_cons_self _ _),
    (h.2.2.2.2.2.2.2.2.2.2.2.2.2.2.2.2.2.2.2.2.2.2.2.2.2 simpleIssue createDefaultBriefFields 200 3 rfl).2.2.1⟩


/-- C7: parseFormatOptions is total defensive coercion: detail_level is
accepted case-insensitively as brief or full and anything else yields full;
a numeric max_description_length is clamped into the interval from 50 to 1000
and a non-numeric one keeps the default 200; a numeric max_journal_entries is
clamped into the interval from 0 to 10 and a non-numeric one keeps the default
3; a brief_fields string the JSON parser rejects leaves brief_fields unset. -/
theorem C7_parseFormatOptions_defensive
    (jp : String → Option BriefFieldOptions) (args : RawArgs) :
    (∀ s : String, args.detail_level = some (.str s) → jsToLower s = "brief" →
      (parseFormatOptions jp args).detail_level = .brief) ∧
    (∀ s : String, args.detail_level = some (.str s) → jsToLower s ≠ "brief" →
      (parseFormatOptions jp args).detail_level = .full) ∧
    ((∀ s : String, args.detail_level ≠ some (.str s)) →
      (parseFormatOptions jp args).detail_level = .full) ∧
    (∀ n : Int, args.max_description_length = some (.num n) →
      (parseFormatOptions jp args).max_description_length =
        some (Int.toNat (max 50 (min 1000 n))) ∧
      50 ≤ Int.toNat (max 50 (min 1000 n)) ∧
      Int.toNat (max 50 (min 1000 n)) ≤ 1000) ∧
    ((∀ n : Int, args.max_description_length ≠ some (.num n)) →
      (parseFormatOptions jp args).max_description_length = some 200) ∧
    (∀ n : Int, args.max_journal_entries = some (.num n) →
      (parseFormatOptions jp args).max_journal_entries =
        some (Int.toNat (max 0 (min 10 n))) ∧
      Int.toNat (max 0 (min 10 n)) ≤ 10) ∧
    ((∀ n : Int, args.max_journal_entries ≠ some (.num n)) →
      (parseFormatOptions jp args).max_journal_entries = some 3) ∧
    (∀ s : String, args.brief_fields = some (.str s) → jp s = none →
      (parseFormatOptions jp args).brief_fields = none) ∧
    (∀ s bf, args.brief_fields = some (.str s) → jp s = some bf →
      (parseFormatOptions jp args).brief_fields = some bf) := by
  refine ⟨?_, ?_, ?_, ?_, ?_, ?_, ?_, ?_, ?_⟩
  · intro s h hlow
    simp [parseFormatOptions, h, hlow]
  · intro s h hlow
    simp only [parseFormatOptions, h]
    rw [if_neg hlow]
    split <;> rfl
  · intro h
    rcases hd : args.detail_level with _ | v
    · simp [parseFormatOptions, hd]
    · cases v with
      | str s => exact absurd hd (h s)
      | num n => simp [parseFormatOptions, hd]
      | other => simp [parseFormatOptions, hd]
  · intro n h
    refine ⟨by simp [parseFormatOptions, h], by omega, by omega⟩
  · intro h
    rcases hd : args.max_description_length with _ | v
    · simp [parseFormatOptions, hd]
    · cases v with
      | str s => simp [parseFormatOptions, hd]
      | num n => exact absurd hd (h n)
      | other => simp [parseFormatOptions, hd]
  · intro n h
    refine ⟨by simp [parseFormatOptions, h], by omega⟩
  · intro h
    rcases hd : args.max_journal_entries with _ | v
    · simp [parseFormatOptions, hd]
    · cases v with
      | str s => simp [parseFormatOptions, hd]
      | num n => exact absurd hd (h n)
      | other => simp [parseFormatOptions, hd]
  · intro s h hjp
    simp [parseFormatOptions, h, hjp]
  · intro s bf h hjp
    simp [parseFormatOptions, h, hjp]

/-- C7 witness: the parser evaluated on malformed arguments: uppercase BRIEF
is accepted, 25 clamps to 50, 99 clamps to 10, and an unparseable brief_fields
string leaves the policy unset. -/
theorem C7_parseFormatOptions_defensive_witness :
    (parseFormatOptions jpFailing malformedArgs).detail_level = .brief ∧
    (parseFormatOptions jpFailing malformedArgs).max_description_length =
      some 50 ∧
    (parseFormatOptions jpFailing malformedArgs).max_journal_entries =
      some 10 ∧
    (parseFormatOptions jpFailing malformedArgs).brief_fields = none := by
  have h := C7_parseFormatOptions_defensive jpFailing malformedArgs
  refine ⟨h.1 "BRIEF" rfl (by decide), ?_, ?_,
    h.2.2.2.2.2.2.2.1 "not json" rfl rfl⟩
  · have h2 := (h.2.2.2.1 25 rfl).1
    simpa using h2
  · have h2 := (h.2.2.2.2.2.1 99 rfl).1
    simpa using h2

/-- C9: each text-filter slot whose value trims to non-empty contributes its
contains operator entry and its value entry, and its field name joins the
activeFilters list; an empty or whitespace-only slot contributes no entry and
never appears in that list; the combined filter-field directive f[] holding
the comma-joined active names is appended after all operator and value entries
exactly when some slot is active; and the directives are merged into the other
list-query parameters without replacing any of them when their keys are
disjoint, as the list-parameter keys are. -/
theorem C9_text_filter_query (params : List (String × String)) (f : TextFilters) :
    (∀ v, f.subject_filter = some v → trimL v.data ≠ [] →
      ("op[subject]", "~") ∈ buildTextFilterParams f ∧
      ("v[subject][]", v) ∈ buildTextFilterParams f ∧
      "subject" ∈ activeFilterNames f) ∧
    (∀ v, f.description_filter = some v → trimL v.data ≠ [] →
      ("op[description]", "~") ∈ buildTextFilterParams f ∧
      ("v[description][]", v) ∈ buildTextFilterParams f ∧
      "description" ∈ activeFilterNames f) ∧
    (∀ v, f.notes_filter = some v → trimL v.data ≠ [] →
      ("op[notes]", "~") ∈ buildTextFilterParams f ∧
      ("v[notes][]", v) ∈ buildTextFilterParams f ∧
      "notes" ∈ activeFilterNames f) ∧
    ((∀ v, f.subject_filter = some v → trimL v.data = []) →
      (∀ w, ("op[subject]", w) ∉ buildTextFilterParams f) ∧
      (∀ w, ("v[subject][]", w) ∉ buildTextFilterParams f) ∧
      "subject" ∉ activeFilterNames f) ∧
    ((∀ v, f.description_filter = some v → trimL v.data = []) →
      (∀ w, ("op[description]", w) ∉ buildTextFilterParams f) ∧
      (∀ w, ("v[description][]", w) ∉ buildTextFilterParams f) ∧
      "description" ∉ activeFilterNames f) ∧
    ((∀ v, f.notes_filter = some v → trimL v.data = []) →
      (∀ w, ("op[notes]", w) ∉ buildTextFilterParams f) ∧
      (∀ w, ("v[notes][]", w) ∉ buildTextFilterParams f) ∧
      "notes" ∉ activeFilterNames f) ∧
    (activeFilterNames f = [] → buildTextFilterParams f = []) ∧
    (activeFilterNames f ≠ [] →
      buildTextFilterParams f =
        (textFilterAcc f).1 ++
          [("f[]", String.intercalate "," (activeFilterNames f))]) ∧
    ((∀ p ∈ params, ∀ q ∈ buildTextFilterParams f, p.1 ≠ q.1) →
      listIssuesFinalParams params f = params ++ buildTextFilterParams f) := by
  refine ⟨?_, ?_, ?_, ?_, ?_, ?_, ?_, ?_, ?_⟩
  · intro v hv ht
    have hs : v ≠ "" := fun he => ht (by rw [he]; rfl)
    have hact : slotActive f.subject_filter = true := by
      rw [hv]
      simp only [slotActive, Bool.and_eq_true, decide_eq_true_eq]
      exact ⟨hs, ht⟩
    refine ⟨mem_build_of_mem_acc ?_, mem_build_of_mem_acc ?_, ?_⟩
    · rw [textFilterAcc_eq]
      dsimp only
      rw [if_pos hact]
      simp
    · rw [textFilterAcc_eq]
      dsimp only
      rw [if_pos hact, hv]
      simp [jsStr]
    · unfold activeFilterNames
      rw [textFilterAcc_eq]
      dsimp only
      rw [if_pos hact]
      simp
  · intro v hv ht
    have hs : v ≠ "" := fun he => ht (by rw [he]; rfl)
    have hact : slotActive f.description_filter = true := by
      rw [hv]
      simp only [slotActive, Bool.and_eq_true, decide_eq_true_eq]
      exact ⟨hs, ht⟩
    refine ⟨mem_build_of_mem_acc ?_, mem_build_of_mem_acc ?_, ?_⟩
    · rw [textFilterAcc_eq]
      dsimp only
      rw [if_pos hact]
      simp
    · rw [textFilterAcc_eq]
      dsimp only
      rw [if_pos hact, hv]
      simp [jsStr]
    · unfold activeFilterNames
      rw [textFilterAcc_eq]
      dsimp only
      rw [if_pos hact]
      simp
  · intro v hv ht
    have hs : v ≠ "" := fun he => ht (by rw [he]; rfl)
    have hact : slotActive f.notes_filter = true := by
      rw [hv]
      simp only [slotActive, Bool.and_eq_true, decide_eq_true_eq]
      exact ⟨hs, ht⟩
    refine ⟨mem_build_of_mem_acc ?_, mem_build_of_mem_acc ?_, ?_⟩
    · rw [textFilterAcc_eq]
      dsimp only
      rw [if_pos hact]
      simp
    · rw [textFilterAcc_eq]
      dsimp only
      rw [if_pos hact, hv]
      simp [jsStr]
    · unfold activeFilterNames
      rw [textFilterAcc_eq]
      dsimp only
      rw [if_pos hact]
      simp
  · intro hin
    have hact : slotActive f.subject_filter = false := by
      rcases hfs : f.subject_filter with _ | s
      · rfl
      · simp [slotActive, hin s hfs]
    refine ⟨?_, ?_, ?_⟩
    · intro w hw
      rcases mem_build_inv hw with hm | hm
      · rcases mem_acc_keys hm with ⟨_, ha⟩ | ⟨hk, _⟩ | ⟨hk, _⟩
        · rw [hact] at ha
          exact absurd ha (by decide)
        · rcases hk with hk | hk <;> simp at hk
        · rcases hk with hk | hk <;> simp at hk
      · simp at hm
    · intro w hw
      rcases mem_build_inv hw with hm | hm
      · rcases mem_acc_keys hm with ⟨_, ha⟩ | ⟨hk, _⟩ | ⟨hk, _⟩
        · rw [hact] at ha
          exact absurd ha (by decide)
        · rcases hk with hk | hk <;> simp at hk
        · rcases hk with hk | hk <;> simp at hk
      · simp at hm
    · intro hw
      rcases mem_names_inv hw with ⟨_, ha⟩ | ⟨hk, _⟩ | ⟨hk, _⟩
      · rw [hact] at ha
        exact absurd ha (by decide)
      · exact absurd hk (by decide)
      · exact absurd hk (by decide)
  · intro hin
    have hact : slotActive f.description_filter = false := by
      rcases hfs : f.description_filter with _ | s
      · rfl
      · simp [slotActive, hin s hfs]
    refine ⟨?_, ?_, ?_⟩
    · intro w hw
      rcases mem_build_inv hw with hm | hm
      · rcases mem_acc_keys hm with ⟨hk, _⟩ | ⟨_, ha⟩ | ⟨hk, _⟩
        · rcases hk with hk | hk <;> simp at hk
        · rw [hact] at ha
          exact absurd ha (by decide)
        · rcases hk with hk | hk <;> simp at hk
      · simp at hm
    · intro w hw
      rcases mem_build_inv hw with hm | hm
      · rcases mem_acc_keys hm with ⟨hk, _⟩ | ⟨_, ha⟩ | ⟨hk, _⟩
        · rcases hk with hk | hk <;> simp at hk
        · rw [hact] at ha
          exact absurd ha (by decide)
        · rcases hk with hk | hk <;> simp at hk
      · simp at hm
    · intro hw
      rcases mem_names_inv hw with ⟨hk, _⟩ | ⟨_, ha⟩ | ⟨hk, _⟩
      · exact absurd hk (by decide)
      · rw [hact] at ha
        exact absurd ha (by decide)
      · exact absurd hk (by decide)
  · intro hin
    have hact : slotActive f.notes_filter = false := by
      rcases hfs : f.notes_filter with _ | s
      · rfl
      · simp [slotActive, hin s hfs]
    refine ⟨?_, ?_, ?_⟩
    · intro w hw
      rcases mem_build_inv hw with hm | hm
      · rcases mem_acc_keys hm with ⟨hk, _⟩ | ⟨hk, _⟩ | ⟨_, ha⟩
        · rcases hk with hk | hk <;> simp at hk
        · rcases hk with hk | hk <;> simp at hk
        · rw [hact] at ha
          exact absurd ha (by decide)
      · simp at hm
    · intro w hw
      rcases mem_build_inv hw with hm | hm
      · rcases mem_acc_keys hm with ⟨hk, _⟩ | ⟨hk, _⟩ | ⟨_, ha⟩
        · rcases hk with hk | hk <;> simp at hk
        · rcases hk with hk | hk <;> simp at hk
        · rw [hact] at ha
          exact absurd ha (by decide)
      · simp at hm
    · intro hw
      rcases mem_names_inv hw with ⟨hk, _⟩ | ⟨hk, _⟩ | ⟨_, ha⟩
      · exact absurd hk (by decide)
      · exact absurd hk (by decide)
      · rw [hact] at ha
        exact absurd ha (by decide)
  · intro hnames
    have h1 : slotActive f.subject_filter = false := by
      by_contra hc
      rw [Bool.not_eq_false] at hc
      have hmem : "subject" ∈ activeFilterNames f := by
        unfold activeFilterNames
        rw [textFilterAcc_eq]
        dsimp only
        rw [if_pos hc]
        simp
      rw [hnames] at hmem
      exact absurd hmem (List.not_mem_nil _)
    have h2 : slotActive f.description_filter = false := by
      by_contra hc
      rw [Bool.not_eq_false] at hc
      have hmem : "description" ∈ activeFilterNames f := by
        unfold activeFilterNames
        rw [textFilterAcc_eq]
        dsimp only
        rw [if_pos hc]
        simp
      rw [hnames] at hmem
      exact absurd hmem (List.not_mem_nil _)
    have h3 : slotActive f.notes_filter = false := by
      by_contra hc
      rw [Bool.not_eq_false] at hc
      have hmem : "notes" ∈ activeFilterNames f := by
        unfold activeFilterNames
        rw [textFilterAcc_eq]
        dsimp only
        rw [if_pos hc]
        simp
      rw [hnames] at hmem
      exact absurd hmem (List.not_mem_nil _)
    have hlen : ¬0 < (textFilterAcc f).2.length := by
      have he : (textFilterAcc f).2 = activeFilterNames f := rfl
      rw [he, hnames]
      simp
    unfold buildTextFilterParams
    rw [if_neg hlen]
    rw [textFilterAcc_eq]
    dsimp only
    rw [if_neg (by simp [h1]), if_neg (by simp [h2]), if_neg (by simp [h3])]
    simp
  · intro hnames
    have hne : (textFilterAcc f).2 ≠ [] := hnames
    have hlen : 0 < (textFilterAcc f).2.length := List.length_pos.mpr hne
    unfold buildTextFilterParams
    rw [if_pos hlen]
    rfl
  · intro hdisj
    unfold listIssuesFinalParams
    exact jsSpreadMerge_disjoint hdisj

/-- C9 witness: the filter law evaluated at a populated subject slot, a
whitespace-only notes slot, and a concrete pagination parameter list. -/
theorem C9_text_filter_query_witness :
    ("op[subject]", "~") ∈ buildTextFilterParams sampleFilters ∧
    ("v[subject][]", "test subject") ∈ buildTextFilterParams sampleFilters ∧
    (∀ w, ("op[notes]", w) ∉ buildTextFilterParams sampleFilters) ∧
    "notes" ∉ activeFilterNames sampleFilters ∧
    listIssuesFinalParams [("limit", "25"), ("offset", "0")] sampleFilters =
      [("limit", "25"), ("offset", "0")] ++ buildTextFilterParams sampleFilters := by
  have h := C9_text_filter_query [("limit", "25"), ("offset", "0")] sampleFilters
  have hpos := h.1 "test subject" rfl (by decide)
  have hneg := h.2.2.2.2.2.1 (by
    intro v hv
    have hv' : some "   " = some v := hv
    cases hv'
    decide)
  have hmerge := h.2.2.2.2.2.2.2.2 (by decide)
  exact ⟨hpos.1, hpos.2.1, hneg.1, hneg.2.2, hmerge⟩

/-- C10: limitJournalEntries with maxEntries zero keeps every entry (slice
from minus zero is slice from zero), with a negative value minus k drops the
first k entries, and with a positive value keeps the trailing entries; note
truncation applies in each case. -/
theorem C10_limitJournalEntries_slice (js : List Journal) (mnl : Nat) :
    limitJournalEntries (some js) 0 mnl = js.map (truncJournalNotes mnl) ∧
    (∀ k : Nat, 0 < k →
      limitJournalEntries (some js) (-(k : Int)) mnl =
        (js.drop k).map (truncJournalNotes mnl)) ∧
    (∀ m : Nat, 0 < m →
      limitJournalEntries (some js) (m : Int) mnl =
        (js.drop (js.length - m)).map (truncJournalNotes mnl)) := by
  unfold limitJournalEntries jsSliceFrom
  by_cases hjs : js = []
  · subst hjs
    simp
  · simp only [if_neg hjs]
    refine ⟨by norm_num, ?_, ?_⟩
    · intro k hk
      simp only [neg_neg]
      rw [if_pos (Int.natCast_nonneg k)]
      simp
    · intro m hm
      have hneg : ¬ (0 : Int) ≤ -(m : Int) := by
        simp only [Int.neg_nonneg, not_le]
        exact_mod_cast hm
      rw [if_neg hneg]
      simp

/-- C10 witness: the slicing law evaluated on the five mock journal entries at
a negative and at a positive limit. -/
theorem C10_limitJournalEntries_slice_witness :
    limitJournalEntries (some fiveJournals) (-(1 : Nat) : Int) 100 =
      (fiveJournals.drop 1).map (truncJournalNotes 100) ∧
    limitJournalEntries (some fiveJournals) ((3 : Nat) : Int) 100 =
      (fiveJournals.drop (fiveJournals.length - 3)).map (truncJournalNotes 100) := by
  exact ⟨(C10_limitJournalEntries_slice fiveJournals 100).2.1 1 (by decide),
         (C10_limitJournalEntries_slice fiveJournals 100).2.2 3 (by decide)⟩

end Redmine

namespace Redmine

theorem hasTriple_small {l : List Char} (h : l.length ≤ 2) : hasTriple l = false := by
  rcases l with _ | ⟨a, _ | ⟨b, _ | ⟨c, t⟩⟩⟩
  · rfl
  · rfl
  · rfl
  · simp at h

theorem hasTriple_tail {x : Char} {l : List Char}
    (h : hasTriple (x :: l) = false) : hasTriple l = false := by
  rcases l with _ | ⟨b, _ | ⟨c, t⟩⟩
  · rfl
  · rfl
  · simp only [hasTriple, Bool.or_eq_false_iff] at h
    exact h.2

theorem hasTriple_cons_ne {x : Char} {l : List Char} (hx : x ≠ '\n') :
    hasTriple (x :: l) = hasTriple l := by
  rcases l with _ | ⟨b, _ | ⟨c, t⟩⟩
  · rfl
  · rfl
  · simp [hasTriple, hx]

theorem hasTriple_cons_cons_ne {x y : Char} {l : List Char} (hy : y ≠ '\n') :
    hasTriple (x :: y :: l) = hasTriple l := by
  rcases l with _ | ⟨c, t⟩
  · rfl
  · simp only [hasTriple, hy, Bool.and_false, Bool.false_and, decide_eq_true_eq]
    rw [hasTriple_cons_ne hy]
    simp [hy]

theorem hasTriple_iff (l : List Char) :
    hasTriple l = true ↔
      ∃ i : Nat, l[i]? = some '\n' ∧ l[i + 1]? = some '\n' ∧
        l[i + 2]? = some '\n' := by
  induction l using hasTriple.induct with
  | case1 a b c rest ih =>
    simp only [hasTriple, Bool.or_eq_true, Bool.and_eq_true, decide_eq_true_eq]
    constructor
    · rintro (⟨⟨ha, hb⟩, hc⟩ | h)
      · exact ⟨0, by simp [ha, hb, hc]⟩
      · rcases ih.mp h with ⟨i, h1, h2, h3⟩
        exact ⟨i + 1, by simpa using h1, by simpa using h2, by simpa using h3⟩
    · rintro ⟨i, h1, h2, h3⟩
      rcases i with _ | i'
      · left
        simp only [List.getElem?_cons_zero, Option.some.injEq] at h1
        simp only [List.getElem?_cons_succ, List.getElem?_cons_zero,
          Option.some.injEq] at h2 h3
        exact ⟨⟨h1, h2⟩, by simpa using h3⟩
      · right
        refine ih.mpr ⟨i', ?_, ?_, ?_⟩
        · simpa using h1
        · simpa using h2
        · simpa using h3
  | case2 l hne =>
    constructor
    · intro h
      exfalso
      rcases l with _ | ⟨a, _ | ⟨b, _ | ⟨c, t⟩⟩⟩ <;> simp [hasTriple] at h
      exact hne a b c t rfl
    · rintro ⟨i, h1, h2, h3⟩
      exfalso
      rcases l with _ | ⟨a, _ | ⟨b, t⟩⟩
      · simp at h1
      · rcases i with _ | i' <;> simp at h2
      · rcases t with _ | ⟨c, t'⟩
        · rcases i with _ | ⟨_ | i'⟩ <;> simp at h3
        · exact hne a b c t' rfl

end Redmine

namespace Redmine

theorem hasTriple_take {l : List Char} {k : Nat}
    (h : hasTriple l = false) : hasTriple (l.take k) = false := by
  by_contra hc
  rw [Bool.not_eq_false, hasTriple_iff] at hc
  rcases hc with ⟨i, h1, h2, h3⟩
  have hk : i + 2 < k := by
    by_contra hik
    push_neg at hik
    rw [List.getElem?_eq_none
      (show (l.take k).length ≤ i + 2 by
        rw [List.length_take]; omega)] at h3
    simp at h3
  rw [List.getElem?_take_of_lt (by omega)] at h1
  rw [List.getElem?_take_of_lt (by omega)] at h2
  rw [List.getElem?_take_of_lt (by omega)] at h3
  rw [Bool.eq_false_iff] at h
  exact h (hasTriple_iff l |>.mpr ⟨i, h1, h2, h3⟩)

theorem hasTriple_drop {l : List Char} {k : Nat}
    (h : hasTriple l = false) : hasTriple (l.drop k) = false := by
  by_contra hc
  rw [Bool.not_eq_false, hasTriple_iff] at hc
  rcases hc with ⟨i, h1, h2, h3⟩
  rw [List.getElem?_drop l k] at h1 h2 h3
  rw [Bool.eq_false_iff] at h
  refine h (hasTriple_iff l |>.mpr ⟨k + i, h1, ?_, ?_⟩)
  · rw [show k + i + 1 = k + (i + 1) by omega]
    exact h2
  · rw [show k + i + 2 = k + (i + 2) by omega]
    exact h3

theorem hasTriple_append_no_nl {l m : List Char}
    (hl : hasTriple l = false) (hm : '\n' ∉ m) :
    hasTriple (l ++ m) = false := by
  by_contra hc
  rw [Bool.not_eq_false, hasTriple_iff] at hc
  rcases hc with ⟨i, h1, h2, h3⟩
  by_cases hin : i + 2 < l.length
  · rw [List.getElem?_append_left (by omega)] at h1
    rw [List.getElem?_append_left (by omega)] at h2
    rw [List.getElem?_append_left (by omega)] at h3
    rw [Bool.eq_false_iff] at hl
    exact hl (hasTriple_iff l |>.mpr ⟨i, h1, h2, h3⟩)
  · push_neg at hin
    rw [List.getElem?_append_right (by omega)] at h3
    rcases List.getElem?_eq_some.mp h3 with ⟨hlt, heq⟩
    exact hm (heq ▸ List.getElem_mem hlt)

end Redmine

namespace Redmine

theorem replCRLF_of_no_cr : ∀ l : List Char, '\r' ∉ l → replCRLF l = l := by
  intro l
  induction l using replCRLF.induct with
  | case1 rest ih =>
    intro h
    exact absurd (List.mem_cons_self _ _) h
  | case2 a rest hne ih =>
    intro h
    rw [replCRLF]
    · rw [ih (fun hm => h (List.mem_cons_of_mem _ hm))]
    · exact hne
  | case3 =>
    intro _
    rfl

theorem mem_collapseGo {x : Char} : ∀ (run : Nat) (l : List Char),
    x ∈ collapseGo run l → x = '\n' ∨ x ∈ l := by
  intro run l
  induction l generalizing run with
  | nil =>
    intro h
    rw [collapseGo] at h
    exact Or.inl (List.eq_of_mem_replicate h)
  | cons a rest ih =>
    intro h
    by_cases ha : a = '\n'
    · subst ha
      rw [collapseGo] at h
      rcases ih (run + 1) h with h | h
      · exact Or.inl h
      · exact Or.inr (List.mem_cons_of_mem _ h)
    · rw [collapseGo] at h
      · rcases List.mem_append.mp h with h | h
        · exact Or.inl (List.eq_of_mem_replicate h)
        · rcases List.mem_cons.mp h with h | h
          · exact Or.inr (h ▸ List.mem_cons_self _ _)
          · rcases ih 0 h with h | h
            · exact Or.inl h
            · exact Or.inr (List.mem_cons_of_mem _ h)
      · exact fun hc => ha hc

theorem hasTriple_two_nl_cons {a : Char} {w : List Char} (ha : a ≠ '\n')
    (hw : hasTriple w = false) :
    hasTriple ('\n' :: '\n' :: a :: w) = false := by
  rcases w with _ | ⟨b, t⟩
  · simp [hasTriple, ha]
  · rw [show hasTriple ('\n' :: '\n' :: a :: b :: t) =
      ((('\n' : Char) = '\n' && ('\n' : Char) = '\n' && a = '\n') ||
        hasTriple ('\n' :: a :: b :: t)) from rfl]
    rw [hasTriple_cons_cons_ne ha]
    simp [ha, hw]

theorem collapseGo_noTriple : ∀ (l : List Char) (run : Nat),
    hasTriple (collapseGo run l) = false := by
  intro l
  induction l with
  | nil =>
    intro run
    rw [collapseGo]
    exact hasTriple_small (by rw [List.length_replicate]; omega)
  | cons a rest ih =>
    intro run
    by_cases ha : a = '\n'
    · subst ha
      rw [collapseGo]
      exact ih (run + 1)
    · rw [collapseGo]
      · have hw := ih 0
        rcases hmin : min run 2 with _ | ⟨_ | ⟨_ | k⟩⟩
        · simp only [List.replicate_zero, List.nil_append]
          rw [hasTriple_cons_ne ha]
          exact hw
        · simp only [List.replicate_succ, List.replicate_zero, List.nil_append,
            List.cons_append]
          rw [hasTriple_cons_cons_ne ha]
          exact hw
        · simp only [List.replicate_succ, List.replicate_zero, List.nil_append,
            List.cons_append]
          exact hasTriple_two_nl_cons ha hw
        · exfalso
          omega
      · exact fun hc => ha hc

end Redmine

namespace Redmine

theorem collapseGo_id : ∀ (l : List Char) (run : Nat), run ≤ 2 →
    hasTriple (List.replicate run '\n' ++ l) = false →
    collapseGo run l = List.replicate run '\n' ++ l := by
  intro l
  induction l with
  | nil =>
    intro run hrun _
    rw [collapseGo]
    simp [min_eq_left hrun]
  | cons a rest ih =>
    intro run hrun htrip
    by_cases ha : a = '\n'
    · subst ha
      have hshift : List.replicate run '\n' ++ '\n' :: rest =
          List.replicate (run + 1) '\n' ++ rest := by
        rw [List.replicate_succ']
        simp
      have hrun1 : run + 1 ≤ 2 := by
        by_contra hgt
        have hrun2 : run = 2 := by omega
        subst hrun2
        rw [show (List.replicate 2 '\n' ++ '\n' :: rest) =
          '\n' :: '\n' :: '\n' :: rest by simp [List.replicate]] at htrip
        simp [hasTriple] at htrip
      rw [collapseGo]
      rw [ih (run + 1) hrun1 (by rw [← hshift]; exact htrip)]
      exact hshift.symm
    · rw [collapseGo]
      · have hrest : hasTriple rest = false := by
          have hdrop := hasTriple_drop (k := run + 1) htrip
          rw [show run + 1 = (List.replicate run '\n').length + 1 by simp,
            List.drop_append] at hdrop
          simpa using hdrop
        rw [ih 0 (by omega) (by simpa using hrest)]
        simp [min_eq_left hrun]
      · exact fun hc => ha hc

theorem dropTrailWs_eq_take : ∀ l : List Char, ∃ k, dropTrailWs l = l.take k := by
  intro l
  induction l with
  | nil => exact ⟨0, rfl⟩
  | cons a as ih =>
    rcases ih with ⟨k, hk⟩
    rw [dropTrailWs]
    by_cases hcond : dropTrailWs as = [] ∧ isJsWs a
    · rw [if_pos hcond]
      exact ⟨0, rfl⟩
    · rw [if_neg hcond]
      exact ⟨k + 1, by rw [hk]; rfl⟩

theorem dropWhile_eq_drop (p : Char → Bool) :
    ∀ l : List Char, ∃ k, l.dropWhile p = l.drop k := by
  intro l
  induction l with
  | nil => exact ⟨0, rfl⟩
  | cons a as ih =>
    rcases ih with ⟨k, hk⟩
    by_cases hp : p a
    · rw [List.dropWhile_cons_of_pos hp]
      exact ⟨k + 1, by rw [hk]; rfl⟩
    · rw [List.dropWhile_cons_of_neg hp]
      exact ⟨0, rfl⟩

theorem hasTriple_trimL {l : List Char} (h : hasTriple l = false) :
    hasTriple (trimL l) = false := by
  unfold trimL
  rcases dropWhile_eq_drop isJsWs l with ⟨k, hk⟩
  rcases dropTrailWs_eq_take (l.dropWhile isJsWs) with ⟨m, hm⟩
  rw [hm, hk]
  exact hasTriple_take (hasTriple_drop h)

theorem mem_trimL {x : Char} {l : List Char} (h : x ∈ trimL l) : x ∈ l := by
  unfold trimL at h
  rcases dropWhile_eq_drop isJsWs l with ⟨k, hk⟩
  rcases dropTrailWs_eq_take (l.dropWhile isJsWs) with ⟨m, hm⟩
  rw [hm, hk] at h
  exact List.drop_subset _ _ (List.take_subset _ _ h)

theorem dropTrailWs_idem : ∀ l : List Char, dropTrailWs (dropTrailWs l) = dropTrailWs l := by
  intro l
  induction l with
  | nil => rfl
  | cons a as ih =>
    rw [dropTrailWs]
    by_cases hcond : dropTrailWs as = [] ∧ isJsWs a
    · rw [if_pos hcond]
      rfl
    · rw [if_neg hcond]
      rw [dropTrailWs, ih]
      rw [if_neg hcond]

theorem head_dropWhile_not (p : Char → Bool) :
    ∀ (l : List Char) (a : Char), (l.dropWhile p).head? = some a → p a = false := by
  intro l
  induction l with
  | nil =>
    intro a h
    simp at h
  | cons b as ih =>
    intro a h
    by_cases hp : p b
    · rw [List.dropWhile_cons_of_pos hp] at h
      exact ih a h
    · rw [List.dropWhile_cons_of_neg hp] at h
      simp at h
      rw [← h]
      exact Bool.eq_false_iff.mpr hp

theorem head_take {l : List Char} {k : Nat} (hk : 1 ≤ k) :
    (l.take k).head? = l.head? := by
  rcases l with _ | ⟨a, as⟩
  · simp
  · rcases k with _ | k'
    · omega
    · simp [List.take]

theorem dropWhile_eq_self_of_head {p : Char → Bool} {l : List Char}
    (h : ∀ a, l.head? = some a → p a = false) :
    l.dropWhile p = l := by
  rcases l with _ | ⟨a, as⟩
  · rfl
  · rw [List.dropWhile_cons_of_neg]
    rw [h a rfl]
    simp

theorem trimL_head {l : List Char} (hne : trimL l ≠ []) :
    ∃ a, (trimL l).head? = some a ∧ isJsWs a = false := by
  unfold trimL at hne ⊢
  rcases dropTrailWs_eq_take (l.dropWhile isJsWs) with ⟨m, hm⟩
  rw [hm] at hne ⊢
  have hm1 : 1 ≤ m := by
    by_contra hm0
    push_neg at hm0
    interval_cases m
    · simp at hne
  rw [head_take hm1]
  rcases hh : (l.dropWhile isJsWs).head? with _ | a
  · exfalso
    have hdw : l.dropWhile isJsWs = [] := by
      rcases hdd : l.dropWhile isJsWs with _ | ⟨x, xs⟩
      · rfl
      · rw [hdd] at hh
        simp at hh
    rw [hdw] at hne
    simp at hne
  · exact ⟨a, rfl, head_dropWhile_not isJsWs l a hh⟩

theorem trimL_idem (l : List Char) : trimL (trimL l) = trimL l := by
  by_cases hne : trimL l = []
  · rw [hne]
    rfl
  · rcases trimL_head hne with ⟨a, ha, hws⟩
    show dropTrailWs ((trimL l).dropWhile isJsWs) = trimL l
    rw [dropWhile_eq_self_of_head (fun b hb => by
      rw [ha] at hb
      cases hb
      exact hws)]
    show dropTrailWs (dropTrailWs (l.dropWhile isJsWs)) = trimL l
    rw [dropTrailWs_idem]
    rfl

end Redmine

namespace Redmine

theorem data_asString (l : List Char) : (l.asString).data = l := rfl

theorem dropTrailWs_append_dots : ∀ l : List Char,
    dropTrailWs (l ++ ['.', '.', '.']) = l ++ ['.', '.', '.'] := by
  intro l
  induction l with
  | nil =>
    rfl
  | cons a l' ih =>
    rw [List.cons_append, dropTrailWs, ih]
    rw [if_neg (by simp)]

theorem cleanFix {y : List Char} (hcr : '\r' ∉ y) (htrip : hasTriple y = false)
    (hdw : y.dropWhile isJsWs = y) (hdt : dropTrailWs y = y) :
    cleanDescription y = y := by
  unfold cleanDescription collapseNL
  rw [replCRLF_of_no_cr y hcr]
  rw [collapseGo_id y 0 (by omega) (by simpa using htrip)]
  simp only [List.replicate_zero, List.nil_append]
  unfold trimL
  rw [hdw, hdt]

theorem cleanDescription_no_cr {l : List Char} (hcr : '\r' ∉ l) :
    '\r' ∉ cleanDescription l := by
  intro hmem
  unfold cleanDescription collapseNL at hmem
  rw [replCRLF_of_no_cr l hcr] at hmem
  rcases mem_collapseGo 0 l (mem_trimL hmem) with h | h
  · exact absurd h (by decide)
  · exact hcr h

theorem cleanDescription_noTriple (l : List Char) :
    hasTriple (cleanDescription l) = false := by
  unfold cleanDescription collapseNL
  exact hasTriple_trimL (collapseGo_noTriple _ 0)

theorem cleanDescription_head {l : List Char} (hne : cleanDescription l ≠ []) :
    ∃ a, (cleanDescription l).head? = some a ∧ isJsWs a = false :=
  trimL_head hne

theorem cleanDescription_idem {l : List Char} (hcr : '\r' ∉ l) :
    cleanDescription (cleanDescription l) = cleanDescription l := by
  by_cases hne : cleanDescription l = []
  · rw [hne]
    rfl
  · refine cleanFix (cleanDescription_no_cr hcr) (cleanDescription_noTriple l) ?_ ?_
    · rcases cleanDescription_head hne with ⟨a, ha, hws⟩
      exact dropWhile_eq_self_of_head (fun b hb => by
        rw [ha] at hb
        cases hb
        exact hws)
    · show dropTrailWs (cleanDescription l) = cleanDescription l
      unfold cleanDescription trimL
      rw [dropTrailWs_idem]

end Redmine

namespace Redmine

theorem length_asString (l : List Char) : (l.asString).length = l.length := rfl

theorem truncateDescription_some (s : String) (n : Nat) (hs : s ≠ "") :
    truncateDescription (some s) n =
      if (cleanDescription s.data).length ≤ n then (cleanDescription s.data).asString
      else (truncateTextL (cleanDescription s.data) n).asString := by
  show (if s = "" then ""
    else if (cleanDescription s.data).length ≤ n then (cleanDescription s.data).asString
      else (truncateTextL (cleanDescription s.data) n).asString) = _
  rw [if_neg hs]

theorem truncateTextL_eq {text : List Char} {maxLength : Nat}
    (h : ¬(text = [] ∨ text.length ≤ maxLength)) :
    truncateTextL text maxLength =
      if 5 * lastIdx ' ' (text.take maxLength) > 4 * (maxLength : Int) then
        (text.take maxLength).take (lastIdx ' ' (text.take maxLength)).toNat
          ++ ('.' :: '.' :: '.' :: [])
      else text.take maxLength ++ ('.' :: '.' :: '.' :: []) := by
  unfold truncateTextL
  rw [if_neg h]

/-- C4 (amended): truncateDescription is idempotent provided the input is free
of carriage returns and the first truncation's output fits within maxLength;
re-truncating such an output returns it unchanged.  (The unconditional claim is
refuted by C4_counterexample.) -/
theorem C4_amended_idempotent :
    ∀ (s : String) (n : Nat), '\r' ∉ s.data →
      (truncateDescription (some s) n).length ≤ n →
      truncateDescription (some (truncateDescription (some s) n)) n
        = truncateDescription (some s) n := by
  intro s n hcr hfit
  by_cases hs : s = ""
  · subst hs
    rfl
  · by_cases hlen : (cleanDescription s.data).length ≤ n
    · have hy := truncateDescription_some s n hs
      rw [if_pos hlen] at hy
      rw [hy]
      by_cases hnil : cleanDescription s.data = []
      · rw [hnil]
        rfl
      · have hne : (cleanDescription s.data).asString ≠ "" := by
          intro h
          apply hnil
          have hd := congrArg String.data h
          rw [data_asString] at hd
          exact hd
        rw [truncateDescription_some _ n hne, data_asString, cleanDescription_idem hcr,
          if_pos hlen]
    · push_neg at hlen
      have hy := truncateDescription_some s n hs
      rw [if_neg (by omega)] at hy
      have hcond : ¬(cleanDescription s.data = [] ∨ (cleanDescription s.data).length ≤ n) := by
        push_neg
        refine ⟨?_, by omega⟩
        intro h
        rw [h] at hlen
        simp at hlen
      rw [truncateTextL_eq hcond] at hy
      rw [hy] at hfit ⊢
      by_cases hcut : 5 * lastIdx ' ' ((cleanDescription s.data).take n) > 4 * (n : Int)
      · rw [if_pos hcut] at hfit ⊢
        simp only [length_asString] at hfit
        have hn1 : 1 ≤ n := by
          by_contra hn0
          push_neg at hn0
          interval_cases n
          simp [lastIdx] at hcut
        have hls1 : 1 ≤ (lastIdx ' ' ((cleanDescription s.data).take n)).toNat := by
          omega
        have hcr2 : '\r' ∉ ((cleanDescription s.data).take n).take
            (lastIdx ' ' ((cleanDescription s.data).take n)).toNat
            ++ ('.' :: '.' :: '.' :: []) := by
          intro hmem
          rcases List.mem_append.mp hmem with h | h
          · exact cleanDescription_no_cr hcr (List.take_subset _ _ (List.take_subset _ _ h))
          · simp at h
        have htrip2 : hasTriple (((cleanDescription s.data).take n).take
            (lastIdx ' ' ((cleanDescription s.data).take n)).toNat
            ++ ('.' :: '.' :: '.' :: [])) = false :=
          hasTriple_append_no_nl
            (hasTriple_take (hasTriple_take (cleanDescription_noTriple s.data)))
            (by decide)
        have hnil2 : cleanDescription s.data ≠ [] := by
          intro h
          rw [h] at hlen
          simp at hlen
        rcases cleanDescription_head hnil2 with ⟨a, ha, hws⟩
        have hheadA : (((cleanDescription s.data).take n).take
            (lastIdx ' ' ((cleanDescription s.data).take n)).toNat).head? = some a := by
          rw [head_take hls1, head_take hn1, ha]
        have hdw2 : (((cleanDescription s.data).take n).take
            (lastIdx ' ' ((cleanDescription s.data).take n)).toNat
            ++ ('.' :: '.' :: '.' :: [])).dropWhile isJsWs
            = ((cleanDescription s.data).take n).take
              (lastIdx ' ' ((cleanDescription s.data).take n)).toNat
              ++ ('.' :: '.' :: '.' :: []) := by
          refine dropWhile_eq_self_of_head (fun b hb => ?_)
          rcases hA : ((cleanDescription s.data).take n).take
              (lastIdx ' ' ((cleanDescription s.data).take n)).toNat with _ | ⟨c, cs⟩
          · rw [hA] at hheadA
            simp at hheadA
          · rw [hA] at hheadA hb
            simp at hheadA hb
            rw [← hb, hheadA]
            exact hws
        have hdt2 := dropTrailWs_append_dots (((cleanDescription s.data).take n).take
          (lastIdx ' ' ((cleanDescription s.data).take n)).toNat)
        have hfix := cleanFix hcr2 htrip2 hdw2 hdt2
        have hne2 : ((((cleanDescription s.data).take n).take
            (lastIdx ' ' ((cleanDescription s.data).take n)).toNat
            ++ ('.' :: '.' :: '.' :: [])).asString) ≠ "" := by
          intro h
          have hd := congrArg String.data h
          rw [data_asString] at hd
          simp at hd
        rw [truncateDescription_some _ n hne2, data_asString, hfix, if_pos hfit]
      · rw [if_neg hcut] at hfit
        exfalso
        simp only [length_asString, List.length_append, List.length_take,
          List.length_cons, List.length_nil] at hfit
        omega

end Redmine

namespace Redmine

/-- C4 witness: the amended idempotence applied to a concrete 34-character
description truncated at 20, which takes the word-boundary cut branch. -/
theorem C4_amended_idempotent_witness :
    '\r' ∉ ("hello world, this is a description" : String).data ∧
    (truncateDescription (some "hello world, this is a description") 20).length ≤ 20 ∧
    truncateDescription
        (some (truncateDescription (some "hello world, this is a description") 20)) 20
      = truncateDescription (some "hello world, this is a description") 20 :=
  ⟨by decide, by decide,
    C4_amended_idempotent "hello world, this is a description" 20 (by decide) (by decide)⟩

end Redmine
